import Mathlib

/-!
Verification development for the Como PD incident scraper's address
resolution engine (`run_scraper.py`).

The engine's pure string pipeline and its resolution orchestrator
`geocode_address` are shallowly embedded here.  Python strings are
modelled as `List Char` (ASCII semantics for `.upper()` / `\s` / `\w`,
which is what the dispatch feed produces).  The network providers
(Nominatim search, US Census geocoder, Overpass) are modelled as an
explicit environment `Env` of response oracles; everything the Python
code does to queries before they reach the network, and to responses
after they come back, is translated from the source.
-/

set_option maxRecDepth 4096



abbrev Str := List Char

/-- Python str.upper(), ASCII model: uppercase each character. -/
def upperL (s : Str) : Str := s.map Char.toUpper

/-- Whitespace, as Python's `str.split()` / `\s` sees it (ASCII model). -/
def isWS (c : Char) : Bool := c = ' ' || c = '\t' || c = '\n' || c = '\r'

/-- One step of whitespace splitting, consumed by a right fold.
The pair holds (current token being built, completed tokens to the right). -/
def splitStep (c : Char) (p : Str × List Str) : Str × List Str :=
  if isWS c then ([], if p.1 = [] then p.2 else p.1 :: p.2)
  else (c :: p.1, p.2)

def splitAux (s : Str) : Str × List Str := s.foldr splitStep ([], [])

def finishSplit (p : Str × List Str) : List Str :=
  if p.1 = [] then p.2 else p.1 :: p.2

/-- Python `s.split()`: maximal runs of non-whitespace characters. -/
def splitWS (s : Str) : List Str := finishSplit (splitAux s)

/-- Python `" ".join(tokens)`. -/
def joinSpace : List Str → Str
  | [] => []
  | [t] => t
  | t :: ts => t ++ ' ' :: joinSpace ts

/-- `_clean_whitespace`: `" ".join((text or "").strip().split())`. -/
def cleanWS (s : Str) : Str := joinSpace (splitWS s)

/-- The `mapping` table of `_normalize_street_text` (street-type expansions). -/
def streetMapping : List (Str × Str) :=
  [ ("HWY".toList, "Highway".toList)
  , ("RD".toList, "Road".toList)
  , ("ST".toList, "Street".toList)
  , ("BLVD".toList, "Boulevard".toList)
  , ("AVE".toList, "Avenue".toList)
  , ("AV".toList, "Avenue".toList)
  , ("CT".toList, "Court".toList)
  , ("DR".toList, "Drive".toList)
  , ("LN".toList, "Lane".toList)
  , ("PL".toList, "Place".toList)
  , ("PKWY".toList, "Parkway".toList)
  , ("PKY".toList, "Parkway".toList)
  , ("SQ".toList, "Square".toList)
  , ("CIR".toList, "Circle".toList)
  , ("TER".toList, "Terrace".toList)
  , ("TR".toList, "Trail".toList)
  , ("TRL".toList, "Trail".toList)
  , ("WAY".toList, "Way".toList)
  , ("EXPY".toList, "Expressway".toList)
  , ("EXPRESS".toList, "Expressway".toList)
  , ("I70".toList, "I-70".toList) ]

/-- The `directions` table of `_normalize_street_text`. -/
def directionsMap : List (Str × Str) :=
  [ ("N".toList, "North".toList)
  , ("S".toList, "South".toList)
  , ("E".toList, "East".toList)
  , ("W".toList, "West".toList)
  , ("NE".toList, "Northeast".toList)
  , ("NW".toList, "Northwest".toList)
  , ("SE".toList, "Southeast".toList)
  , ("SW".toList, "Southwest".toList) ]

/-- The `drop_tokens` set of `_normalize_street_text`. -/
def dropTokens : List Str :=
  [ "NB".toList, "SB".toList, "EB".toList, "WB".toList
  , "OFFR".toList, "OFF".toList, "ONR".toList, "RAMP".toList, "EXIT".toList ]

/-- Association-list lookup (`dict` lookup in the source). -/
def lookupL (m : List (Str × Str)) (k : Str) : Option Str :=
  match m with
  | [] => none
  | (a, b) :: r => if k = a then some b else lookupL r k

/-- The per-character separator treatment of `_normalize_street_text`:
`"/" -> " / "`, `"&" -> " & "`, `"@" -> " @ "`, `"-" -> " "`, else unchanged.
(The source's four sequential `str.replace` calls are equivalent to this
single character map because the targets are distinct single characters
and no replacement string contains a later target.) -/
def repl (c : Char) : Str :=
  if c = '/' then [' ', '/', ' ']
  else if c = '&' then [' ', '&', ' ']
  else if c = '@' then [' ', '@', ' ']
  else if c = '-' then [' ']
  else [c]

/-- Per-token normalization of `_normalize_street_text`'s loop body:
drop travel-direction tokens, expand directions, expand street types,
keep anything else. -/
def normTok (t : Str) : Option Str :=
  let up := upperL t
  if up ∈ dropTokens then none
  else
    match lookupL directionsMap up with
    | some d => some d
    | none =>
      match lookupL streetMapping up with
      | some v => some v
      | none => some t

/-- Tokenization performed by `_normalize_street_text` before its loop:
separator spacing, whitespace cleaning, split. -/
def retok (s : Str) : List Str := splitWS (cleanWS (s.flatMap repl))

/-- `_normalize_street_text`. -/
def normStreet (raw : Str) : Str :=
  if raw = [] then []
  else joinSpace ((retok raw).filterMap normTok)

/-- A token contains no whitespace. -/
def noWS (t : Str) : Prop := ∀ c ∈ t, isWS c = false

instance (t : Str) : Decidable (noWS t) := by unfold noWS; infer_instance

/-! ### Token structure after the separator pass -/

/-- Not one of the four characters rewritten by `repl`. -/
def notSep (c : Char) : Prop := c ≠ '/' ∧ c ≠ '&' ∧ c ≠ '@' ∧ c ≠ '-'

instance (c : Char) : Decidable (notSep c) := by unfold notSep; infer_instance

def sepFree (t : Str) : Prop := ∀ c ∈ t, notSep c

instance (t : Str) : Decidable (sepFree t) := by unfold sepFree; infer_instance

/-- Shape of every token produced by tokenizing a `repl`-rewritten string:
nonempty, whitespace-free, and either a lone separator or separator-free. -/
def preTok (t : Str) : Prop :=
  t ≠ [] ∧ noWS t ∧ (t = ['/'] ∨ t = ['&'] ∨ t = ['@'] ∨ sepFree t)

instance (t : Str) : Decidable (preTok t) := by unfold preTok; infer_instance

/-! ### Token stability under a second normalization pass -/

/-- A token that survives a second pass of `_normalize_street_text`
unchanged: re-tokenizing it yields exactly itself, and the table pass
maps it to itself. -/
def StableTok (u : Str) : Prop :=
  splitWS (u.flatMap repl) = [u] ∧ normTok u = some u

instance (u : Str) : Decidable (StableTok u) := by unfold StableTok; infer_instance

/-! ### Generic string scanning (the source's `re.sub` / `re.search` /
`str.replace` uses, at character level).

All scanners are fuelled by the string length so that they are structural
and kernel-reducible; each consumed match has length at least one, so the
fuel never runs out on the strings they are applied to. -/

/-- Python `\w` (ASCII model): alphanumeric or underscore. -/
def isWordC (c : Char) : Bool := c.isAlphanum || c = '_'

/-- A `\b` word boundary holds before the current position, given the
previous character (`none` at the start of the string), when a word
character comes next. -/
def bdry (prev : Option Char) : Bool :=
  match prev with
  | none => true
  | some c => !isWordC c

/-- A `\b` word boundary holds after a word character, looking at the rest
of the string. -/
def bdryAfter (r : Str) : Bool :=
  match r with
  | [] => true
  | c :: _ => !isWordC c

/-- Left-to-right, non-overlapping regex-style substitution: `m prev s`
reports a match of the given length at the current position (with its
replacement), scanning continues after a replaced match, as `re.sub` does. -/
def scanSubB (m : Option Char → Str → Option (Nat × Str)) :
    Nat → Option Char → Str → Str
  | 0, _, s => s
  | fuel+1, prev, s =>
    match s with
    | [] => []
    | c :: t =>
      match m prev (c :: t) with
      | some (len, rep) =>
        if len = 0 then c :: scanSubB m fuel (some c) t
        else rep ++ scanSubB m fuel (((c :: t).take len).getLast?) ((c :: t).drop len)
      | none => c :: scanSubB m fuel (some c) t

def runSub (m : Option Char → Str → Option (Nat × Str)) (s : Str) : Str :=
  scanSubB m s.length none s

/-- Python `str.replace(pat, rep)` (all occurrences, left to right). -/
def replALoop (pat rep : Str) : Nat → Str → Str
  | 0, s => s
  | fuel+1, s =>
    match s with
    | [] => []
    | c :: t =>
      if pat.isPrefixOf (c :: t) && !pat.isEmpty then
        rep ++ replALoop pat rep fuel ((c :: t).drop pat.length)
      else c :: replALoop pat rep fuel t

def replaceAll (pat rep s : Str) : Str := replALoop pat rep s.length s

/-- Python `needle in hay` (substring test). -/
def hasSub (needle : Str) : Str → Bool
  | [] => needle.isEmpty
  | c :: t => needle.isPrefixOf (c :: t) || hasSub needle t

def containsChar (c : Char) (s : Str) : Bool := s.any (· = c)

def trimLeft (s : Str) : Str := s.dropWhile (fun c => isWS c)

def trimRight (s : Str) : Str := (s.reverse.dropWhile (fun c => isWS c)).reverse

/-- Python `str.strip()`. -/
def stripEnds (s : Str) : Str := trimRight (trimLeft s)

/-- Python `s.split(sep)` for a one-character separator (keeps empties). -/
def splitOnChar (sep : Char) : Str → List Str
  | [] => [[]]
  | c :: t =>
    match splitOnChar sep t with
    | [] => [[]]
    | h :: r => if c = sep then [] :: h :: r else (c :: h) :: r

/-- Python `int` of a digit string. -/
def strToNat (ds : Str) : Nat := ds.foldl (fun n c => n * 10 + (c.toNat - '0'.toNat)) 0

def digCh (d : Nat) : Char :=
  if d = 0 then '0' else if d = 1 then '1' else if d = 2 then '2' else if d = 3 then '3'
  else if d = 4 then '4' else if d = 5 then '5' else if d = 6 then '6' else if d = 7 then '7'
  else if d = 8 then '8' else '9'

def natToStrAux : Nat → Nat → Str
  | 0, _ => []
  | fuel+1, n => if n = 0 then [] else natToStrAux fuel (n / 10) ++ [digCh (n % 10)]

/-- Decimal rendering of a natural number (Python `f"{n}"` for the
non-negative integers the engine synthesizes). -/
def natToStr (n : Nat) : Str := if n = 0 then ['0'] else natToStrAux (n + 1) n

/-! ### `_normalize_dispatch_location` -/

/-- Matcher for `\b(\d{1,6})\s*-\s*BLK\b` with replacement `"\1 BLOCK"`.
The digit run is the maximal one (a longer run cannot match the pattern,
because backtracking always leaves a digit where `-` is required). -/
def matchBlkHyphen (prev : Option Char) (s : Str) : Option (Nat × Str) :=
  if bdry prev then
    let ds := s.takeWhile Char.isDigit
    if ds.isEmpty || decide (6 < ds.length) then none
    else
      let r1 := s.drop ds.length
      let w1 := r1.takeWhile isWS
      match r1.drop w1.length with
      | '-' :: r3 =>
        let w2 := r3.takeWhile isWS
        let r4 := r3.drop w2.length
        if upperL (r4.take 3) = "BLK".toList && bdryAfter (r4.drop 3) then
          some (ds.length + w1.length + 1 + w2.length + 3, ds ++ " BLOCK".toList)
        else none
      | _ => none
  else none

/-- Matcher for `\b(\d{1,6})\s*BLK\b` with replacement `"\1 BLOCK"`. -/
def matchBlkPlain (prev : Option Char) (s : Str) : Option (Nat × Str) :=
  if bdry prev then
    let ds := s.takeWhile Char.isDigit
    if ds.isEmpty || decide (6 < ds.length) then none
    else
      let r1 := s.drop ds.length
      let w1 := r1.takeWhile isWS
      let r2 := r1.drop w1.length
      if upperL (r2.take 3) = "BLK".toList && bdryAfter (r2.drop 3) then
        some (ds.length + w1.length + 3, ds ++ " BLOCK".toList)
      else none
  else none

/-- Matcher for `\b(\d{1,6})\s*-\s*(\d{1,6})\b` with replacement `"\1"`
(numeric ranges collapse to their first number). -/
def matchNumRange (prev : Option Char) (s : Str) : Option (Nat × Str) :=
  if bdry prev then
    let ds := s.takeWhile Char.isDigit
    if ds.isEmpty || decide (6 < ds.length) then none
    else
      let r1 := s.drop ds.length
      let w1 := r1.takeWhile isWS
      match r1.drop w1.length with
      | '-' :: r3 =>
        let w2 := r3.takeWhile isWS
        let r4 := r3.drop w2.length
        let ds2 := r4.takeWhile Char.isDigit
        if ds2.isEmpty || decide (6 < ds2.length) then none
        else if bdryAfter (r4.drop ds2.length) then
          some (ds.length + w1.length + 1 + w2.length + ds2.length, ds)
        else none
      | _ => none
  else none

/-- Matcher for `\bWORD\b` (case-insensitive) with a fixed replacement. -/
def matchWordCI (w rep : Str) (prev : Option Char) (s : Str) : Option (Nat × Str) :=
  if bdry prev && decide (upperL (s.take w.length) = w) && bdryAfter (s.drop w.length) then
    some (w.length, rep)
  else none

def ordinalPairs : List (Str × Str) :=
  [ ("FIRST".toList, "1ST".toList)
  , ("SECOND".toList, "2ND".toList)
  , ("THIRD".toList, "3RD".toList)
  , ("FOURTH".toList, "4TH".toList)
  , ("FIFTH".toList, "5TH".toList)
  , ("SIXTH".toList, "6TH".toList)
  , ("SEVENTH".toList, "7TH".toList)
  , ("EIGHTH".toList, "8TH".toList)
  , ("NINTH".toList, "9TH".toList)
  , ("TENTH".toList, "10TH".toList) ]

/-- `_normalize_dispatch_location`. -/
def normalizeDispatch (raw : Str) : Str :=
  let text := cleanWS raw
  if text = [] then []
  else
    let text := runSub matchBlkHyphen text
    let text := runSub matchBlkPlain text
    let text := runSub matchNumRange text
    let text := ordinalPairs.foldl (fun t p => runSub (matchWordCI p.1 p.2) t) text
    cleanWS text

/-! ### `_strip_unit` -/

def unitKws : List Str :=
  [ "APT".toList, "APARTMENT".toList, "UNIT".toList, "STE".toList, "SUITE".toList ]

/-- After a unit keyword, `\s+[^,]+$` must consume the whole remainder:
at least one whitespace character, then (allowing the backtracking of the
greedy `\s+`) a nonempty comma-free tail reaching the end. -/
def unitTailMatch (r : Str) : Bool :=
  let w := (r.takeWhile isWS).length
  if w = 0 then false
  else if w = r.length then decide (2 ≤ w)
  else (r.drop w).all (fun c => !(c = ','))

/-- Does `s` (a suffix of the input) entirely match
`\s+(APT|APARTMENT|UNIT|STE|SUITE)\s+[^,]+$` (case-insensitive)? -/
def suffixUnitMatch (s : Str) : Bool :=
  let w1 := s.takeWhile isWS
  if w1.isEmpty then false
  else
    let r := s.drop w1.length
    unitKws.any (fun kw =>
      decide (upperL (r.take kw.length) = kw) && unitTailMatch (r.drop kw.length))

/-- Remove the leftmost end-anchored unit fragment (the first `re.sub`
of `_strip_unit`; being `$`-anchored it matches at most once). -/
def stripUnitPass1 : Str → Str
  | [] => []
  | c :: t => if suffixUnitMatch (c :: t) then [] else c :: stripUnitPass1 t

/-- Does `s` entirely match `\s+#\s*[^,]+$`? -/
def suffixHashMatch (s : Str) : Bool :=
  let w1 := s.takeWhile isWS
  if w1.isEmpty then false
  else
    match s.drop w1.length with
    | '#' :: rest => !rest.isEmpty && rest.all (fun c => !(c = ','))
    | _ => false

def stripUnitPass2 : Str → Str
  | [] => []
  | c :: t => if suffixHashMatch (c :: t) then [] else c :: stripUnitPass2 t

/-- `_strip_unit`. -/
def stripUnit (raw : Str) : Str :=
  if raw = [] then []
  else cleanWS (stripUnitPass2 (stripUnitPass1 (cleanWS raw)))

/-! ### Pattern matches used by `geocode_address` -/

/-- `re.search(r"\s*/\s*|\s+AT\s+|\s+AND\s+|\s*&\s*|\s*@\s*", raw, re.IGNORECASE)`.
`raw` is always whitespace-collapsed here (it is `_clean_whitespace`
output), so `\s+` can only be one space. -/
def isInterLike (raw : Str) : Bool :=
  containsChar '/' raw || containsChar '&' raw || containsChar '@' raw ||
    hasSub " AT ".toList (upperL raw) || hasSub " AND ".toList (upperL raw)

/-- `re.match(r"^\s*\d{1,6}\s+\S+", s)` as a boolean (step 3c's
"looks like a street address" test). -/
def addrLike (s : Str) : Bool :=
  let s1 := trimLeft s
  let ds := s1.takeWhile Char.isDigit
  if ds.isEmpty || decide (6 < ds.length) then false
  else
    let r := s1.drop ds.length
    let w := r.takeWhile isWS
    !w.isEmpty && !(r.drop w.length).isEmpty

/-- `re.match(r"^\s*(\d{1,6})\s*BLOCK\s+(?:OF\s+)?(.+?)\s*$", s, re.IGNORECASE)`:
block number and street fragment.  `s` is whitespace-collapsed when this
is applied (so the lazy `.+?` / `$` subtleties around trailing whitespace
and newlines cannot arise). -/
def parseBlock (s : Str) : Option (Nat × Str) :=
  let s1 := trimLeft s
  let ds := s1.takeWhile Char.isDigit
  if ds.isEmpty || decide (6 < ds.length) then none
  else
    let r1 := s1.drop ds.length
    let r2 := r1.drop (r1.takeWhile isWS).length
    if upperL (r2.take 5) = "BLOCK".toList then
      let r3 := r2.drop 5
      match r3 with
      | [] => none
      | c :: _ =>
        if isWS c then
          let r4 := r3.drop (r3.takeWhile isWS).length
          let afterOf :=
            if upperL (r4.take 2) = "OF".toList &&
                (match r4.drop 2 with | c2 :: _ => isWS c2 | [] => false) then
              (r4.drop 2).drop ((r4.drop 2).takeWhile isWS).length
            else r4
          let street := trimRight afterOf
          if street = [] then none else some (strToNat ds, street)
        else none
    else none

/-- `re.match(r"^\s*(\d{1,6})(?:-[A-Z0-9]+)?\s+(.+?)\s*$", s, re.IGNORECASE)`:
house number and street for the step-8 Overpass address-tag fallback. -/
def parseAddr (s : Str) : Option (Str × Str) :=
  let s1 := trimLeft s
  let ds := s1.takeWhile Char.isDigit
  if ds.isEmpty || decide (6 < ds.length) then none
  else
    let r1 := s1.drop ds.length
    let r2 :=
      match r1 with
      | '-' :: rr =>
        let al := rr.takeWhile Char.isAlphanum
        if !al.isEmpty && (match rr.drop al.length with | c :: _ => isWS c | [] => false) then
          rr.drop al.length
        else r1
      | _ => r1
    match r2 with
    | [] => none
    | c :: _ =>
      if isWS c then
        let street := trimRight (trimLeft r2)
        if street = [] then none else some (ds, street)
      else none

/-! ### Intersection street variants (`street_variants` in step 5) -/

def leadDirWords : List Str :=
  [ "NORTH".toList, "SOUTH".toList, "EAST".toList, "WEST".toList ]

/-- `re.sub(r"^(North|South|East|West)\s+", "", s, flags=re.IGNORECASE)`:
anchored, so it fires at most once; the alternation falls through to the
next word when `\s+` is missing. -/
def stripLeadDirGo (ws : List Str) (s : Str) : Str :=
  match ws with
  | [] => s
  | w :: rest =>
    if upperL (s.take w.length) = w then
      let r := s.drop w.length
      let wsr := r.takeWhile isWS
      if !wsr.isEmpty then r.drop wsr.length else stripLeadDirGo rest s
    else stripLeadDirGo rest s

def stripLeadDir (s : Str) : Str := stripLeadDirGo leadDirWords s

/-- `(?:HIGHWAY|HWY)\s*(\d+)\b` at the current position: consumed length
and the digit group. -/
def hwAltAt (s : Str) : Option (Nat × Str) :=
  let tryWord (w : Str) : Option (Nat × Str) :=
    if upperL (s.take w.length) = w then
      let r := s.drop w.length
      let wsr := r.takeWhile isWS
      let r2 := r.drop wsr.length
      let ds := r2.takeWhile Char.isDigit
      if !ds.isEmpty && bdryAfter (r2.drop ds.length) then
        some (w.length + wsr.length + ds.length, ds)
      else none
    else none
  match tryWord ("HIGHWAY".toList) with
  | some r => some r
  | none => tryWord ("HWY".toList)

/-- `\b(?:US\s+)?(?:HIGHWAY|HWY)\s*(\d+)\b` (the `hw_re` of
`street_variants`), at the current position. -/
def hwMatchAt (prev : Option Char) (s : Str) : Option (Nat × Str) :=
  if bdry prev then
    let withUS :=
      if upperL (s.take 2) = "US".toList then
        let r := s.drop 2
        let wsr := r.takeWhile isWS
        if !wsr.isEmpty then
          match hwAltAt (r.drop wsr.length) with
          | some (len, ds) => some (2 + wsr.length + len, ds)
          | none => none
        else none
      else none
    match withUS with
    | some r => some r
    | none => hwAltAt s
  else none

def hwSearchAux : Nat → Option Char → Str → Option Str
  | 0, _, _ => none
  | fuel+1, prev, s =>
    match s with
    | [] => none
    | c :: t =>
      match hwMatchAt prev (c :: t) with
      | some (_, ds) => some ds
      | none => hwSearchAux fuel (some c) t

/-- `hw_re.search(v)`, returning the digit group of the first match. -/
def hwSearchS (s : Str) : Option Str := hwSearchAux s.length none s

/-- `hw_re.sub(rep, v)`: replace every match with the literal `rep`. -/
def hwSubAll (rep : Str) (s : Str) : Str :=
  runSub (fun prev s2 => (hwMatchAt prev s2).map (fun p => (p.1, rep))) s

/-- `street_variants` (step 5): base, expanded, direction-stripped,
highway-substituted variants, capped at 5.  The two `for v in
list(variants)` passes iterate over a snapshot while appending to (and
testing membership against) the live list. -/
def streetVariants (s : Str) : List Str :=
  let base := cleanWS s
  let vs0 : List Str := if base = [] then [] else [base]
  let expanded := normStreet base
  let vs1 := if expanded ≠ [] ∧ expanded ∉ vs0 then vs0 ++ [expanded] else vs0
  let vs2 := vs1.foldl (fun acc v =>
    let v2 := cleanWS (stripLeadDir v)
    if v2 ≠ [] ∧ v2 ∉ acc then acc ++ [v2] else acc) vs1
  let vs3 := vs2.foldl (fun acc v =>
    match hwSearchS v with
    | none => acc
    | some num =>
      [ "US ".toList ++ num, "US Highway ".toList ++ num, "Route ".toList ++ num ].foldl
        (fun acc2 rep =>
          let v3 := cleanWS (hwSubAll rep v)
          if v3 ≠ [] ∧ v3 ∉ acc2 then acc2 ++ [v3] else acc2) acc) vs2
  vs3.take 5

/-- Variant list of the block path: `[street_expanded, street]`, cleaned,
deduplicated, empties dropped. -/
def mkVariants (a b : Str) : List Str :=
  [a, b].foldl (fun acc v0 =>
    let v := cleanWS v0
    if v ≠ [] ∧ v ∉ acc then acc ++ [v] else acc) []

/-- Order-preserving dedup over cleaned queries (the `seen` set of step 5). -/
def dedupClean : List Str → List Str → List Str
  | [], _ => []
  | q :: qs, seen =>
    let qn := cleanWS q
    if qn ≠ [] ∧ qn ∉ seen then qn :: dedupClean qs (seen ++ [qn])
    else dedupClean qs seen

/-! ### Environment, state and coordinate model -/

/-- A possibly-null latitude/longitude pair, the `latlon` tuples of the
source (`(None, None)` marks failure; cache values may in principle be
half-null, which `_is_failed_latlon` also treats as failure). -/
abbrev LL := Option ℚ × Option ℚ

def emptyLL : LL := (none, none)

/-- Network oracles: for Nominatim and Census, the parsed `(lat, lon)` of
the first result (`none` for an empty result list / no address match) or
an exception message; for the three Overpass helpers, the coordinate the
pattern-cascade inside the helper ends up with (those helpers catch their
own exceptions and return `(None, None)` at worst). -/
structure Env where
  nomBounded : Str → Except Str (Option (ℚ × ℚ))
  nomUnbounded : Str → Except Str (Option (ℚ × ℚ))
  census : Str → Except Str (Option (ℚ × ℚ))
  opInter : Str → Str → LL
  opCenter : Str → LL
  opAddr : Str → Str → LL

/-- Per-resolution trace: the source's `attempts`, `errors` and
`used_query`, plus ghost counters of provider invocations
(Nominatim / Census / Overpass), of failed Overpass shared-node
intersection lookups, and of rate-limit sleeps. -/
structure St where
  attempts : List (Str × Str)
  errors : List (Str × Str × Str)
  used : Option Str
  nomCalls : Nat
  cenCalls : Nat
  opCalls : Nat
  opInterFail : Nat
  sleeps : Nat
deriving DecidableEq

def st0 : St := ⟨[], [], none, 0, 0, 0, 0, 0⟩

/-- `NOMINATIM_VIEWBOX = (-92.55, 39.15, -92.15, 38.80)` (left, top,
right, bottom); `_in_viewbox` checks `bottom ≤ lat ≤ top` and
`left ≤ lon ≤ right`. -/
def inViewbox (lat lon : ℚ) : Bool :=
  decide ((38.80 : ℚ) ≤ lat) && decide (lat ≤ (39.15 : ℚ)) &&
    (decide ((-92.55 : ℚ) ≤ lon) && decide (lon ≤ (-92.15 : ℚ)))

/-- The shared "caller already mentions the region" test of
`nominatim_query` and `census_query`:
`"COLUMBIA" in q.upper() or "MO" in q.upper() or "MISSOURI" in q.upper()`
(the source appends its suffix when all three are absent). -/
def regionMention (q : Str) : Bool :=
  hasSub ("COLUMBIA".toList) (upperL q) || hasSub ("MO".toList) (upperL q) ||
    hasSub ("MISSOURI".toList) (upperL q)

/-- `nominatim_query` after the suffix decision: bounded search first;
a nonempty bounded response is final (filtered by `_in_viewbox`);
an empty bounded response falls back to the unbounded search, whose
result is filtered the same way. -/
def nomAfterSuffix (env : Env) (qFull : Str) : Except Str LL :=
  match env.nomBounded qFull with
  | .error e => .error e
  | .ok (some (lat, lon)) =>
    .ok (if inViewbox lat lon then (some lat, some lon) else emptyLL)
  | .ok none =>
    match env.nomUnbounded qFull with
    | .error e => .error e
    | .ok (some (lat, lon)) =>
      .ok (if inViewbox lat lon then (some lat, some lon) else emptyLL)
    | .ok none => .ok emptyLL

/-- `nominatim_query`. -/
def nominatim_query (env : Env) (q : Str) : Except Str LL :=
  let qc := cleanWS q
  if qc = [] then .ok emptyLL
  else
    nomAfterSuffix env (if regionMention qc then qc else qc ++ ", Columbia, MO, USA".toList)

/-- `census_query`. -/
def census_query (env : Env) (q : Str) : Except Str LL :=
  let qc := cleanWS q
  if qc = [] then .ok emptyLL
  else
    let qFull := if regionMention qc then qc else qc ++ ", Columbia, MO".toList
    match env.census qFull with
    | .error e => .error e
    | .ok none => .ok emptyLL
    | .ok (some (lat, lon)) =>
      .ok (if inViewbox lat lon then (some lat, some lon) else emptyLL)

/-- `_overpass_find_intersection` at its call boundary: the cleaning and
emptiness guards are from the source; the pattern cascade and HTTP
exchange are the `opInter` oracle. -/
def overpass_find_intersection (env : Env) (a b : Str) : LL :=
  let a2 := cleanWS a
  let b2 := cleanWS b
  if a2 = [] ∨ b2 = [] then emptyLL else env.opInter a2 b2

/-- `_overpass_find_way_center`, same boundary. -/
def overpass_find_way_center (env : Env) (name : Str) : LL :=
  let n := cleanWS name
  if n = [] then emptyLL else env.opCenter n

/-- `_overpass_find_address`, same boundary. -/
def overpass_find_address (env : Env) (num street : Str) : LL :=
  let n := cleanWS num
  let s := cleanWS street
  if n = [] ∨ s = [] then emptyLL else env.opAddr n s

/-! ### The orchestrator's attempt primitives -/

/-- `try_query`: skip empty queries silently; otherwise log the attempt,
call Nominatim, sleep (success or exception), record errors, and set
`used_query` on success. -/
def tryQuery (env : Env) (lbl q : Str) (st : St) : LL × St :=
  let qn := cleanWS q
  if qn = [] then (emptyLL, st)
  else
    let st1 : St := { st with attempts := st.attempts ++ [(lbl, qn)], nomCalls := st.nomCalls + 1 }
    match nominatim_query env qn with
    | .ok ll =>
      let st2 : St := { st1 with sleeps := st1.sleeps + 1 }
      if ll = emptyLL then (ll, st2) else (ll, { st2 with used := some qn })
    | .error e =>
      (emptyLL, { st1 with errors := st1.errors ++ [(lbl, qn, e)], sleeps := st1.sleeps + 1 })

/-- `try_census`, the Census twin of `try_query`. -/
def tryCensus (env : Env) (lbl q : Str) (st : St) : LL × St :=
  let qn := cleanWS q
  if qn = [] then (emptyLL, st)
  else
    let st1 : St := { st with attempts := st.attempts ++ [(lbl, qn)], cenCalls := st.cenCalls + 1 }
    match census_query env qn with
    | .ok ll =>
      let st2 : St := { st1 with sleeps := st1.sleeps + 1 }
      if ll = emptyLL then (ll, st2) else (ll, { st2 with used := some qn })
    | .error e =>
      (emptyLL, { st1 with errors := st1.errors ++ [(lbl, qn, e)], sleeps := st1.sleeps + 1 })

/-- Block-path Overpass address probe: the attempt is logged before the
call (no sleep follows an Overpass call in the source). -/
def opAddrSite (env : Env) (n : Nat) (v : Str) (st : St) : LL × St :=
  let q := natToStr n ++ ' ' :: v
  let st1 : St := { st with attempts := st.attempts ++ [("overpass_addr".toList, q)] }
  let ll := overpass_find_address env (natToStr n) v
  let st2 : St := { st1 with opCalls := st1.opCalls + 1 }
  if ll = emptyLL then (ll, st2)
  else (ll, { st2 with used := some ("overpass_addr: ".toList ++ q) })

/-- Block-path Overpass way-center probe, attempt logged before the call. -/
def wayCenterSite (env : Env) (cand : Str) (st : St) : LL × St :=
  let st1 : St := { st with attempts := st.attempts ++ [("overpass_way_center".toList, cand)] }
  let ll := overpass_find_way_center env cand
  let st2 : St := { st1 with opCalls := st1.opCalls + 1 }
  if ll = emptyLL then (ll, st2)
  else (ll, { st2 with used := some ("overpass_center: ".toList ++ cand) })

/-- Step-5 Overpass shared-node fallback over candidate pattern pairs:
a single `overpass_intersection` attempt is appended only when a lookup
succeeds; failed lookups leave no attempt record (source lines 830-850). -/
def opInterLoop (env : Env) : List (Str × Str) → St → LL × St
  | [], st => (emptyLL, st)
  | (a, b) :: rest, st =>
    let ll := overpass_find_intersection env a b
    if ll = emptyLL then
      opInterLoop env rest
        { st with opCalls := st.opCalls + 1, opInterFail := st.opInterFail + 1 }
    else
      let st1 : St := { st with opCalls := st.opCalls + 1 }
      let st2 : St :=
        { st1 with
            attempts := st1.attempts ++ [("overpass_intersection".toList, a ++ " & ".toList ++ b)]
            used := some ("overpass: ".toList ++ a ++ " & ".toList ++ b) }
      (ll, st2)

/-- `for x in xs: latlon = f(x); if latlon != (None, None): break`. -/
def loopTry {α : Type} (f : α → St → LL × St) : List α → St → LL × St
  | [], st => (emptyLL, st)
  | a :: rest, st =>
    let r := f a st
    if r.1 = emptyLL then loopTry f rest r.2 else r

/-- `if latlon == (None, None): latlon = ...` sequencing. -/
def andThen (r : LL × St) (f : St → LL × St) : LL × St :=
  if r.1 = emptyLL then f r.2 else r

def guardStep (b : Bool) (f : St → LL × St) (st : St) : LL × St :=
  if b then f st else (emptyLL, st)

/-! ### The resolution pipeline -/

/-- Step 3b's `re.sub(r"\bBLOCK\b", " ", s)` followed by cleaning. -/
def noBlock (x : Str) : Str :=
  cleanWS (runSub (matchWordCI ("BLOCK".toList) (" ".toList)) x)

/-- Step 7's `re.sub(r"\b(BLOCK|OF)\b", " ", s)` (alternation tries
`BLOCK` before `OF`). -/
def matchBlockOrOf (prev : Option Char) (s : Str) : Option (Nat × Str) :=
  match matchWordCI ("BLOCK".toList) (" ".toList) prev s with
  | some r => some r
  | none => matchWordCI ("OF".toList) (" ".toList) prev s

/-- Steps 4's body: block-number probing (`{N, N+50, N+99}` over the
street variants, Nominatim then Census then Overpass address tags),
street-only fallback, then the Overpass way-center fallback. -/
def blockStep (env : Env) (N : Nat) (street streetExp : Str) (st : St) : LL × St :=
  let variants := mkVariants streetExp street
  let r1 :=
    if N = 0 then
      loopTry (fun v st2 => tryQuery env ("block_0_street_only".toList) v st2) variants st
    else
      let cands := [N, N + 50, N + 99]
      (andThen (andThen
        (loopTry (fun n st2 =>
          loopTry (fun v st3 =>
            tryQuery env ("block_to_address".toList) (natToStr n ++ ' ' :: v) st3) variants st2)
          cands st)
        (fun st2 => loopTry (fun n st3 =>
          loopTry (fun v st4 =>
            tryCensus env ("census_block_to_address".toList) (natToStr n ++ ' ' :: v) st4)
            variants st3) cands st2))
        (fun st2 => loopTry (fun n st3 =>
          loopTry (fun v st4 => opAddrSite env n v st4) variants st3) cands st2))
  andThen
    (andThen r1
      (fun st2 => loopTry (fun v st3 => tryQuery env ("block_street_only".toList) v st3)
        variants st2))
    (fun st2 =>
      let wcands := (if street ≠ [] then [street] else []) ++
        (if streetExp ≠ [] ∧ streetExp ≠ street then [streetExp] else [])
      loopTry (fun c st3 => wayCenterSite env c st3) wcands st2)

def interQueriesRaw (v1s v2s : List Str) : List Str :=
  v1s.flatMap (fun a => v2s.flatMap (fun b =>
    [ a ++ " & ".toList ++ b
    , a ++ " and ".toList ++ b
    , a ++ " at ".toList ++ b
    , a ++ " / ".toList ++ b ]))

/-- Step 5: split on normalized separators, build street variants, try up
to 4 deduplicated Nominatim intersection queries, then fall back to the
Overpass shared-node lookup over the first 3 variants of each side. -/
def interStep (env : Env) (a2 : Str) (st : St) : LL × St :=
  let nfs := replaceAll ("/".toList) (" & ".toList)
    (replaceAll (" AND ".toList) (" & ".toList)
      (replaceAll (" @ ".toList) (" & ".toList)
        (replaceAll (" AT ".toList) (" & ".toList) a2)))
  if containsChar '&' nfs then
    match ((splitOnChar '&' nfs).map stripEnds).filter (fun p => !p.isEmpty) with
    | p1 :: p2 :: _ =>
      let v1s := streetVariants p1
      let v2s := streetVariants p2
      let qs := dedupClean (interQueriesRaw v1s v2s) []
      andThen (loopTry (fun q st2 => tryQuery env ("intersection".toList) q st2) (qs.take 4) st)
        (fun st2 => opInterLoop env
          ((v1s.take 3).flatMap (fun a => (v2s.take 3).map (fun b => (a, b)))) st2)
    | _ => (emptyLL, st)
  else (emptyLL, st)

/-- Step 6: strip remaining ramp/direction tokens from `a2` and retry. -/
def simplifiedStep (env : Env) (a2 : Str) (st : St) : LL × St :=
  let simplified := normStreet a2
  if simplified ≠ [] ∧ simplified ≠ a2 then
    tryQuery env ("simplified".toList) simplified st
  else (emptyLL, st)

/-- Step 7: drop literal `BLOCK` / `OF` words from the raw text,
normalize, retry. -/
def finalTrimStep (env : Env) (raw : Str) (st : St) : LL × St :=
  tryQuery env ("final_trim".toList) (normStreet (cleanWS (runSub matchBlockOrOf raw))) st

/-- Step 8: if the text still looks like `<number> <street>`, try the
Overpass address-tag lookup (attempt logged before the call). -/
def addrTagStep (env : Env) (ndor : Str) (st : St) : LL × St :=
  match parseAddr ndor with
  | none => (emptyLL, st)
  | some (hn, street0) =>
    let su := stripUnit street0
    let street := if su = [] then street0 else su
    let q := hn ++ ' ' :: street
    let st1 : St := { st with attempts := st.attempts ++ [("overpass_addr".toList, q)] }
    let ll := overpass_find_address env hn street
    let st2 : St := { st1 with opCalls := st1.opCalls + 1 }
    if ll = emptyLL then (ll, st2)
    else (ll, { st2 with used := some ("overpass_addr: ".toList ++ q) })

/-- Steps 5-8 with the post-block `a2` in hand. -/
def afterBlock (env : Env) (raw ndor a2 : Str) (r : LL × St) : LL × St :=
  andThen (andThen (andThen (andThen r
    (interStep env a2))
    (simplifiedStep env a2))
    (finalTrimStep env raw))
    (addrTagStep env ndor)

/-- Steps 4-8 (the `if latlon == (None, None):` section): block handling
when the text parses as `<N> BLOCK [OF] <street>` (which also rebinds
`a2` to the expanded street), then intersection handling and the final
fallbacks. -/
def afterBasics (env : Env) (raw ndor : Str) (st : St) : LL × St :=
  match parseBlock ndor with
  | some (N, g2) =>
    let street := cleanWS g2
    let sExp := normStreet street
    afterBlock env raw ndor (if sExp = [] then street else sExp)
      (blockStep env N street sExp st)
  | none => afterBlock env raw ndor ndor (emptyLL, st)

/-- The whole strategy pipeline of `geocode_address` after the cache
check (steps 1-8), for cleaned `raw` and its dispatch-normalized form. -/
def resolveCore (env : Env) (raw nd : Str) : LL × St :=
  let inter := isInterLike raw
  let ndor := if nd = [] then raw else nd
  andThen (andThen (andThen (andThen (andThen (andThen
    (guardStep (!inter) (tryQuery env ("raw".toList) raw) st0)
    (guardStep (!inter && !nd.isEmpty && decide (nd ≠ raw))
      (tryQuery env ("normalized_dispatch".toList) nd)))
    (guardStep (!inter && decide (stripUnit raw ≠ raw))
      (tryQuery env ("strip_unit".toList) (stripUnit raw))))
    (guardStep (!inter && !(normStreet ndor).isEmpty && decide (normStreet ndor ≠ raw))
      (tryQuery env ("expanded".toList) (normStreet ndor))))
    (guardStep (!inter && !(noBlock ndor).isEmpty && decide (noBlock ndor ≠ raw))
      (tryQuery env ("no_block".toList) (noBlock ndor))))
    (guardStep (!inter && addrLike ndor)
      (tryCensus env ("census_address".toList) ndor)))
    (afterBasics env raw ndor)

abbrev Cache := Str → Option LL

def updateCache (c : Cache) (k : Str) (v : LL) : Cache :=
  fun k2 => if k2 = k then some v else c k2

/-- `_is_failed_latlon`. -/
def isFailedLL (v : LL) : Bool := v.1.isNone || v.2.isNone

/-- `geocode_address`: empty-input short-circuit, cache fast path,
strategy pipeline, final cache write.  Returns the coordinate, the
updated cache, and the trace. -/
def geocode_address (env : Env) (address : Str) (cache : Cache) (retry : Bool) :
    LL × Cache × St :=
  if address = [] then (emptyLL, cache, st0)
  else
    let raw := cleanWS address
    let key := upperL raw
    match cache key with
    | some v =>
      if !retry || !isFailedLL v then (v, cache, st0)
      else
        let r := resolveCore env raw (normalizeDispatch raw)
        (r.1, updateCache cache key r.1, r.2)
    | none =>
      let r := resolveCore env raw (normalizeDispatch raw)
      (r.1, updateCache cache key r.1, r.2)

/-- An environment in which every provider finds nothing. -/
def envFail : Env :=
  ⟨fun _ => .ok none, fun _ => .ok none, fun _ => .ok none,
   fun _ _ => emptyLL, fun _ => emptyLL, fun _ _ => emptyLL⟩

def cache0 : Cache := fun _ => none

/-- An environment whose Overpass oracle returns a fixed out-of-region
coordinate for address-tag lookups (used to exhibit that the engine
accepts Overpass results without a containment check). -/
def envOutOfRegion : Env :=
  ⟨fun _ => .ok none, fun _ => .ok none, fun _ => .ok none,
   fun _ _ => emptyLL, fun _ => emptyLL, fun _ _ => (some 0, some 0)⟩

/-- A cache holding a success (a fully non-null pair) under the
empty-string key. -/
def cacheEmptyKey : Cache := updateCache cache0 [] (some 39, some 92)

/-! ### Invariants and spec-side descriptions used by the claims -/

/-- A coordinate pair is either not a full success or lies inside the
configured bounding region. -/
def GoodLL (v : LL) : Prop := ∀ a b, v = (some a, some b) → inViewbox a b = true

instance (v : LL) : Decidable (GoodLL v) := by
  unfold GoodLL
  rcases v with ⟨_ | a, _ | b⟩
  · exact isTrue (by intro a b h; cases h)
  · exact isTrue (by intro a b h; cases h)
  · exact isTrue (by intro a b h; cases h)
  · exact decidable_of_iff (inViewbox a b = true)
      ⟨fun h a2 b2 h2 => by cases h2; exact h, fun h => h a b rfl⟩

/-- The Overpass oracles only ever report in-region coordinates. -/
def GoodEnv (env : Env) : Prop :=
  (∀ a b, GoodLL (env.opInter a b)) ∧ (∀ s, GoodLL (env.opCenter s)) ∧
    (∀ n s, GoodLL (env.opAddr n s))

/-- Every provider finds nothing (and nothing raises). -/
def FailEnv (env : Env) : Prop :=
  (∀ q, env.nomBounded q = .ok none) ∧ (∀ q, env.nomUnbounded q = .ok none) ∧
    (∀ q, env.census q = .ok none) ∧ (∀ a b, env.opInter a b = emptyLL) ∧
    (∀ s, env.opCenter s = emptyLL) ∧ (∀ n s, env.opAddr n s = emptyLL)

/-- Attempt records are one-to-one with provider invocations except for
the failed Overpass shared-node intersection lookups. -/
def CountInv (st : St) : Prop :=
  st.attempts.length + st.opInterFail = st.nomCalls + st.cenCalls + st.opCalls

/-- One rate-limit sleep per Nominatim or Census invocation (and none for
Overpass). -/
def SleepInv (st : St) : Prop := st.sleeps = st.nomCalls + st.cenCalls

/-- The preservation interface of the orchestrator's state-touching
primitives, used to push a state invariant through the whole pipeline. -/
def PresPrim (P : St → Prop) (env : Env) : Prop :=
  (∀ lbl q st, P st → P (tryQuery env lbl q st).2) ∧
  (∀ lbl q st, P st → P (tryCensus env lbl q st).2) ∧
  (∀ n v st, P st → P (opAddrSite env n v st).2) ∧
  (∀ c st, P st → P (wayCenterSite env c st).2) ∧
  (∀ ps st, P st → P (opInterLoop env ps st).2) ∧
  (∀ ndor st, P st → P (addrTagStep env ndor st).2)

/-- The way-center candidate list of the block path: the raw street
first, then the expanded form when different. -/
def wayCands (street streetExp : Str) : List Str :=
  (if street ≠ [] then [street] else []) ++
    (if streetExp ≠ [] ∧ streetExp ≠ street then [streetExp] else [])

/-- House-number cross product, in claim C6's order: numbers outer,
street variants inner. -/
def specBlockCross (lbl : Str) (nums : List Nat) (variants : List Str) : List (Str × Str) :=
  nums.flatMap (fun n => variants.map (fun v => (lbl, natToStr n ++ ' ' :: v)))

/-- The ordered attempt log claim C6 predicts for the block path: for
`N = 0` the street name alone (then the shared street-only and way-center
fallbacks); for `N > 0` the synthesized numbers `{N, N+50, N+99}` against
each street variant as free-text, then structured, then map-graph
address queries, then street-only, then the way-center query. -/
def specBlockAttempts (N : Nat) (variants : List Str) (street streetExp : Str) :
    List (Str × Str) :=
  if N = 0 then
    variants.map (fun v => ("block_0_street_only".toList, v)) ++
      variants.map (fun v => ("block_street_only".toList, v)) ++
      (wayCands street streetExp).map (fun c => ("overpass_way_center".toList, c))
  else
    specBlockCross ("block_to_address".toList) [N, N + 50, N + 99] variants ++
      specBlockCross ("census_block_to_address".toList) [N, N + 50, N + 99] variants ++
      specBlockCross ("overpass_addr".toList) [N, N + 50, N + 99] variants ++
      variants.map (fun v => ("block_street_only".toList, v)) ++
      (wayCands street streetExp).map (fun c => ("overpass_way_center".toList, c))

/-- `tryQuery`'s state effect on a nonempty query that finds nothing. -/
def bumpNom (st : St) (lbl qn : Str) : St :=
  { st with
      attempts := st.attempts ++ [(lbl, qn)]
      nomCalls := st.nomCalls + 1
      sleeps := st.sleeps + 1 }

def bumpCen (st : St) (lbl qn : Str) : St :=
  { st with
      attempts := st.attempts ++ [(lbl, qn)]
      cenCalls := st.cenCalls + 1
      sleeps := st.sleeps + 1 }

def bumpOpA (st : St) (q : Str) : St :=
  { st with
      attempts := st.attempts ++ [("overpass_addr".toList, q)]
      opCalls := st.opCalls + 1 }

def bumpWC (st : St) (c : Str) : St :=
  { st with
      attempts := st.attempts ++ [("overpass_way_center".toList, c)]
      opCalls := st.opCalls + 1 }



/-! ## Theorems -/



/-! ### Splitting / joining lemmas -/

theorem splitAux_cons (c : Char) (s : Str) :
    splitAux (c :: s) = splitStep c (splitAux s) := rfl

theorem splitStep_ws (c : Char) (p : Str × List Str) (h : isWS c = true) :
    splitStep c p = ([], finishSplit p) := by
  simp only [splitStep, finishSplit, h, if_true]

theorem foldr_splitStep_init (x : Str) (R : List Str) :
    x.foldr splitStep ([], R) = ((splitAux x).1, (splitAux x).2 ++ R) := by
  induction x with
  | nil => simp [splitAux]
  | cons c x ih =>
    simp only [List.foldr_cons, ih, splitAux_cons]
    by_cases hc : isWS c = true
    · simp only [splitStep, hc, if_true]
      by_cases h1 : (splitAux x).1 = [] <;> simp [h1]
    · simp only [splitStep, hc, if_false, Bool.false_eq_true]

theorem splitWS_append_space (a b : Str) :
    splitWS (a ++ ' ' :: b) = splitWS a ++ splitWS b := by
  have h1 : splitAux (a ++ ' ' :: b) = a.foldr splitStep (splitStep ' ' (splitAux b)) := by
    simp [splitAux, List.foldr_append]
  rw [splitStep_ws ' ' _ (by decide)] at h1
  rw [foldr_splitStep_init] at h1
  show finishSplit (splitAux (a ++ ' ' :: b)) = finishSplit (splitAux a) ++ finishSplit (splitAux b)
  rw [h1]
  by_cases h2 : (splitAux a).1 = [] <;> simp [finishSplit, h2]

theorem splitAux_good (s : Str) :
    noWS (splitAux s).1 ∧ ∀ t ∈ (splitAux s).2, t ≠ [] ∧ noWS t := by
  induction s with
  | nil => exact ⟨fun c hc => absurd hc (List.not_mem_nil c), fun t ht => absurd ht (List.not_mem_nil t)⟩
  | cons c s ih =>
    obtain ⟨h1, h2⟩ := ih
    rw [splitAux_cons]
    by_cases hc : isWS c = true
    · rw [splitStep_ws c _ hc]
      refine ⟨fun d hd => absurd hd (List.not_mem_nil d), ?_⟩
      intro t ht
      unfold finishSplit at ht
      split at ht
      · exact h2 t ht
      · rcases List.mem_cons.mp ht with h | h
        · subst h; exact ⟨by assumption, h1⟩
        · exact h2 t h
    · simp only [splitStep, hc, if_false, Bool.false_eq_true]
      refine ⟨?_, h2⟩
      intro d hd
      rcases List.mem_cons.mp hd with h | h
      · subst h; simpa using hc
      · exact h1 d h

theorem splitWS_good (s : Str) : ∀ t ∈ splitWS s, t ≠ [] ∧ noWS t := by
  intro t ht
  obtain ⟨h1, h2⟩ := splitAux_good s
  unfold splitWS finishSplit at ht
  split at ht
  · exact h2 t ht
  · rcases List.mem_cons.mp ht with h | h
    · subst h; exact ⟨by assumption, h1⟩
    · exact h2 t h

theorem splitAux_noWS (t : Str) (h : noWS t) : splitAux t = (t, []) := by
  induction t with
  | nil => rfl
  | cons c t ih =>
    rw [splitAux_cons, ih (fun d hd => h d (List.mem_cons_of_mem c hd))]
    have hc : isWS c = false := h c (List.mem_cons_self c t)
    simp [splitStep, hc]

theorem splitWS_single (t : Str) (h1 : t ≠ []) (h2 : noWS t) : splitWS t = [t] := by
  unfold splitWS
  rw [splitAux_noWS t h2]
  simp [finishSplit, h1]

theorem splitWS_joinSpace (ts : List Str) (h : ∀ t ∈ ts, t ≠ [] ∧ noWS t) :
    splitWS (joinSpace ts) = ts := by
  induction ts with
  | nil => rfl
  | cons t ts ih =>
    cases ts with
    | nil =>
      have := h t (List.mem_cons_self t [])
      exact splitWS_single t this.1 this.2
    | cons t' ts' =>
      show splitWS (t ++ ' ' :: joinSpace (t' :: ts')) = t :: t' :: ts'
      rw [splitWS_append_space]
      have ht := h t (List.mem_cons_self t _)
      rw [splitWS_single t ht.1 ht.2, ih (fun u hu => h u (List.mem_cons_of_mem t hu))]
      rfl

theorem splitWS_cleanWS (s : Str) : splitWS (cleanWS s) = splitWS s :=
  splitWS_joinSpace (splitWS s) (splitWS_good s)

theorem cleanWS_idem (s : Str) : cleanWS (cleanWS s) = cleanWS s :=
  congrArg joinSpace (splitWS_cleanWS s)

theorem retok_eq (s : Str) : retok s = splitWS (s.flatMap repl) := by
  unfold retok
  exact splitWS_cleanWS _

theorem repl_notSep (c : Char) (h : notSep c) : repl c = [c] := by
  obtain ⟨h1, h2, h3, h4⟩ := h
  simp [repl, h1, h2, h3, h4]

theorem flatMap_repl_sepFree (t : Str) (h : sepFree t) : t.flatMap repl = t := by
  induction t with
  | nil => rfl
  | cons c t ih =>
    rw [List.flatMap_cons, repl_notSep c (h c (List.mem_cons_self c t)),
      ih (fun d hd => h d (List.mem_cons_of_mem c hd))]
    rfl

theorem finishSplit_preTok (p : Str × List Str)
    (hcur : noWS p.1 ∧ sepFree p.1) (hts : ∀ t ∈ p.2, preTok t) :
    ∀ t ∈ finishSplit p, preTok t := by
  intro t ht
  unfold finishSplit at ht
  split at ht
  · exact hts t ht
  · rcases List.mem_cons.mp ht with h | h
    · subst h
      exact ⟨by assumption, hcur.1, Or.inr (Or.inr (Or.inr hcur.2))⟩
    · exact hts t h

theorem splitAux_flatMap_repl (s : Str) :
    (noWS (splitAux (s.flatMap repl)).1 ∧ sepFree (splitAux (s.flatMap repl)).1) ∧
      ∀ t ∈ (splitAux (s.flatMap repl)).2, preTok t := by
  induction s with
  | nil =>
    exact ⟨⟨fun c hc => absurd hc (List.not_mem_nil c),
      fun c hc => absurd hc (List.not_mem_nil c)⟩,
      fun t ht => absurd ht (List.not_mem_nil t)⟩
  | cons c s ih =>
    obtain ⟨⟨hnw, hsf⟩, hts⟩ := ih
    have hsplit : splitAux ((c :: s).flatMap repl)
        = (repl c).foldr splitStep (splitAux (s.flatMap repl)) := by
      simp [splitAux, List.foldr_append]
    by_cases h1 : c = '/'
    · subst h1
      rw [hsplit]
      show (noWS ([] : Str) ∧ sepFree ([] : Str)) ∧
        ∀ t ∈ ['/'] :: finishSplit (splitAux (s.flatMap repl)), preTok t
      refine ⟨⟨fun d hd => absurd hd (List.not_mem_nil d),
        fun d hd => absurd hd (List.not_mem_nil d)⟩, ?_⟩
      intro t ht
      rcases List.mem_cons.mp ht with h | h
      · subst h; exact ⟨by decide, by decide, Or.inl rfl⟩
      · exact finishSplit_preTok _ ⟨hnw, hsf⟩ hts t h
    · by_cases h2 : c = '&'
      · subst h2
        rw [hsplit]
        show (noWS ([] : Str) ∧ sepFree ([] : Str)) ∧
          ∀ t ∈ ['&'] :: finishSplit (splitAux (s.flatMap repl)), preTok t
        refine ⟨⟨fun d hd => absurd hd (List.not_mem_nil d),
          fun d hd => absurd hd (List.not_mem_nil d)⟩, ?_⟩
        intro t ht
        rcases List.mem_cons.mp ht with h | h
        · subst h; exact ⟨by decide, by decide, Or.inr (Or.inl rfl)⟩
        · exact finishSplit_preTok _ ⟨hnw, hsf⟩ hts t h
      · by_cases h3 : c = '@'
        · subst h3
          rw [hsplit]
          show (noWS ([] : Str) ∧ sepFree ([] : Str)) ∧
            ∀ t ∈ ['@'] :: finishSplit (splitAux (s.flatMap repl)), preTok t
          refine ⟨⟨fun d hd => absurd hd (List.not_mem_nil d),
            fun d hd => absurd hd (List.not_mem_nil d)⟩, ?_⟩
          intro t ht
          rcases List.mem_cons.mp ht with h | h
          · subst h; exact ⟨by decide, by decide, Or.inr (Or.inr (Or.inl rfl))⟩
          · exact finishSplit_preTok _ ⟨hnw, hsf⟩ hts t h
        · by_cases h4 : c = '-'
          · subst h4
            rw [hsplit]
            show (noWS ([] : Str) ∧ sepFree ([] : Str)) ∧
              ∀ t ∈ finishSplit (splitAux (s.flatMap repl)), preTok t
            exact ⟨⟨fun d hd => absurd hd (List.not_mem_nil d),
              fun d hd => absurd hd (List.not_mem_nil d)⟩,
              finishSplit_preTok _ ⟨hnw, hsf⟩ hts⟩
          · have hrepl : repl c = [c] := repl_notSep c ⟨h1, h2, h3, h4⟩
            rw [hsplit, hrepl]
            show (noWS (splitStep c (splitAux (s.flatMap repl))).1 ∧
                sepFree (splitStep c (splitAux (s.flatMap repl))).1) ∧
              ∀ t ∈ (splitStep c (splitAux (s.flatMap repl))).2, preTok t
            by_cases hc : isWS c = true
            · rw [splitStep_ws c _ hc]
              exact ⟨⟨fun d hd => absurd hd (List.not_mem_nil d),
                fun d hd => absurd hd (List.not_mem_nil d)⟩,
                finishSplit_preTok _ ⟨hnw, hsf⟩ hts⟩
            · simp only [splitStep, hc, if_false, Bool.false_eq_true]
              refine ⟨⟨?_, ?_⟩, hts⟩
              · intro d hd
                rcases List.mem_cons.mp hd with h | h
                · subst h; simpa using hc
                · exact hnw d h
              · intro d hd
                rcases List.mem_cons.mp hd with h | h
                · subst h; exact ⟨h1, h2, h3, h4⟩
                · exact hsf d h

theorem preTok_retok (s : Str) : ∀ t ∈ retok s, preTok t := by
  rw [retok_eq]
  show ∀ t ∈ finishSplit (splitAux (s.flatMap repl)), preTok t
  obtain ⟨hcur, hts⟩ := splitAux_flatMap_repl s
  exact finishSplit_preTok _ hcur hts

theorem retokTok_single (t : Str) (h : preTok t) : splitWS (t.flatMap repl) = [t] := by
  obtain ⟨hne, hnw, hd⟩ := h
  rcases hd with h | h | h | h
  · subst h; decide
  · subst h; decide
  · subst h; decide
  · rw [flatMap_repl_sepFree t h]
    exact splitWS_single t hne hnw

theorem dir_stable : ∀ p ∈ directionsMap, StableTok p.2 := by decide

theorem map_stable : ∀ p ∈ streetMapping, p.1 ≠ "I70".toList → StableTok p.2 := by decide

theorem lookupL_mem (m : List (Str × Str)) (k v : Str) (h : lookupL m k = some v) :
    (k, v) ∈ m := by
  induction m with
  | nil => simp [lookupL] at h
  | cons p r ih =>
    obtain ⟨a, b⟩ := p
    unfold lookupL at h
    split at h
    · rename_i heq
      injection h with h2
      subst heq
      subst h2
      exact List.mem_cons_self _ _
    · exact List.mem_cons_of_mem _ (ih h)

theorem stable_of_normTok (t u : Str) (hp : preTok t)
    (hI : upperL t ≠ "I70".toList) (h : normTok t = some u) : StableTok u := by
  by_cases hdrop : upperL t ∈ dropTokens
  · exfalso
    unfold normTok at h
    simp [hdrop] at h
  · cases hdir : lookupL directionsMap (upperL t) with
    | some d =>
      have hud : d = u := by
        unfold normTok at h
        simp only [hdrop, if_false, hdir, Option.some_inj] at h
        exact h
      subst hud
      exact dir_stable _ (lookupL_mem _ _ _ hdir)
    | none =>
      cases hmap : lookupL streetMapping (upperL t) with
      | some v =>
        have huv : v = u := by
          unfold normTok at h
          simp only [hdrop, if_false, hdir, hmap, Option.some_inj] at h
          exact h
        subst huv
        exact map_stable _ (lookupL_mem _ _ _ hmap) hI
      | none =>
        have hut : t = u := by
          unfold normTok at h
          simp only [hdrop, if_false, hdir, hmap, Option.some_inj] at h
          exact h
        subst hut
        refine ⟨retokTok_single t hp, ?_⟩
        unfold normTok
        simp only [hdrop, if_false, hdir, hmap]

theorem retok_joinSpace (ts : List Str) :
    splitWS ((joinSpace ts).flatMap repl)
      = ts.flatMap (fun t => splitWS (t.flatMap repl)) := by
  induction ts with
  | nil => rfl
  | cons t ts ih =>
    cases ts with
    | nil => simp [joinSpace]
    | cons t' ts' =>
      show splitWS ((t ++ ' ' :: joinSpace (t' :: ts')).flatMap repl) = _
      rw [List.flatMap_append, List.flatMap_cons]
      have hsp : repl ' ' = [' '] := by decide
      rw [hsp]
      show splitWS (t.flatMap repl ++ ' ' :: (joinSpace (t' :: ts')).flatMap repl) = _
      rw [splitWS_append_space, ih, List.flatMap_cons]
      simp [List.flatMap_cons]

theorem flatMap_singleton_eq_self {α : Type} (us : List α) (f : α → List α)
    (h : ∀ u ∈ us, f u = [u]) : us.flatMap f = us := by
  induction us with
  | nil => rfl
  | cons u us ih =>
    rw [List.flatMap_cons, h u (List.mem_cons_self u us),
      ih (fun v hv => h v (List.mem_cons_of_mem u hv))]
    rfl

theorem filterMap_some_eq_self {α : Type} (us : List α) (f : α → Option α)
    (h : ∀ u ∈ us, f u = some u) : us.filterMap f = us := by
  induction us with
  | nil => rfl
  | cons u us ih =>
    rw [List.filterMap_cons, h u (List.mem_cons_self u us),
      ih (fun v hv => h v (List.mem_cons_of_mem u hv))]

theorem joinSpace_ne_nil (us : List Str) (h0 : us ≠ [])
    (h : ∀ u ∈ us, u ≠ []) : joinSpace us ≠ [] := by
  cases us with
  | nil => exact absurd rfl h0
  | cons u us =>
    cases us with
    | nil => exact h u (List.mem_cons_self u [])
    | cons u' us' =>
      show u ++ ' ' :: joinSpace (u' :: us') ≠ []
      simp

theorem stable_ne_nil (u : Str) (h : StableTok u) : u ≠ [] := by
  intro hnil
  subst hnil
  have := h.1
  simp [splitWS, splitAux, finishSplit] at this

/-- C5, amended core: `_normalize_street_text` is idempotent on every
input none of whose tokens (after separator spacing and splitting)
upper-cases to `I70` — the `I70 -> I-70` expansion is the only source of
non-idempotence, because the hyphen it introduces is itself rewritten to
a space by the next pass. -/
theorem normStreet_idem_no_I70 (s : Str)
    (H : ∀ t ∈ retok s, upperL t ≠ "I70".toList) :
    normStreet (normStreet s) = normStreet s := by
  by_cases hs : s = []
  · subst hs; rfl
  · have hstable : ∀ u ∈ (retok s).filterMap normTok, StableTok u := by
      intro u hu
      obtain ⟨t, ht, hnt⟩ := List.mem_filterMap.mp hu
      exact stable_of_normTok t u (preTok_retok s t ht) (H t ht) hnt
    have hfs : normStreet s = joinSpace ((retok s).filterMap normTok) := by
      unfold normStreet
      rw [if_neg hs]
    by_cases hus : (retok s).filterMap normTok = []
    · rw [hfs, hus]
      rfl
    · have hjne : joinSpace ((retok s).filterMap normTok) ≠ [] :=
        joinSpace_ne_nil _ hus (fun u hu => stable_ne_nil u (hstable u hu))
      rw [hfs]
      unfold normStreet
      rw [if_neg hjne]
      rw [retok_eq, retok_joinSpace,
        flatMap_singleton_eq_self _ _ (fun u hu => (hstable u hu).1),
        filterMap_some_eq_self _ _ (fun u hu => (hstable u hu).2)]

/-- C5, counterexample: the normalizer is not idempotent on `"I70"` —
one pass yields `"I-70"`, a second pass yields `"I 70"`. -/
theorem normStreet_not_idempotent_I70 :
    ¬ (normStreet (normStreet "I70".toList) = normStreet "I70".toList) := by decide

/-- Witness for `normStreet_idem_no_I70` at the concrete input `"E BROADWAY"`. -/
theorem normStreet_idem_no_I70_witness :
    normStreet (normStreet "E BROADWAY".toList) = normStreet "E BROADWAY".toList :=
  normStreet_idem_no_I70 ("E BROADWAY".toList) (by decide)

/-! ### Combinator lemmas -/

theorem andThen_pres (P : St → Prop) (r : LL × St) (f : St → LL × St)
    (hr : P r.2) (hf : ∀ st, P st → P (f st).2) : P (andThen r f).2 := by
  unfold andThen
  split
  · exact hf _ hr
  · exact hr

theorem guardStep_pres (P : St → Prop) (b : Bool) (f : St → LL × St) (st : St)
    (hf : ∀ st2, P st2 → P (f st2).2) (hst : P st) : P (guardStep b f st).2 := by
  unfold guardStep
  split
  · exact hf _ hst
  · exact hst

theorem loopTry_pres {α : Type} (P : St → Prop) (f : α → St → LL × St)
    (hf : ∀ a st, P st → P (f a st).2) :
    ∀ (l : List α) (st : St), P st → P (loopTry f l st).2 := by
  intro l
  induction l with
  | nil => intro st hst; exact hst
  | cons a rest ih =>
    intro st hst
    unfold loopTry
    dsimp only
    split
    · exact ih _ (hf a st hst)
    · exact hf a st hst

theorem andThen_good (G : LL → Prop) (r : LL × St) (f : St → LL × St)
    (hr : G r.1) (hf : ∀ st, G (f st).1) : G (andThen r f).1 := by
  unfold andThen
  split
  · exact hf _
  · exact hr

theorem guardStep_good (G : LL → Prop) (b : Bool) (f : St → LL × St) (st : St)
    (hf : ∀ st2, G (f st2).1) (hempty : G emptyLL) : G (guardStep b f st).1 := by
  unfold guardStep
  split
  · exact hf _
  · exact hempty

theorem loopTry_good {α : Type} (G : LL → Prop) (f : α → St → LL × St)
    (hf : ∀ a st, G (f a st).1) (hempty : G emptyLL) :
    ∀ (l : List α) (st : St), G (loopTry f l st).1 := by
  intro l
  induction l with
  | nil => intro st; exact hempty
  | cons a rest ih =>
    intro st
    unfold loopTry
    dsimp only
    split
    · exact ih _
    · exact hf a st

/-! ### Region containment of every adapter result (claim C1) -/

theorem goodLL_empty : GoodLL emptyLL := by decide

theorem goodLL_viewbox_filter (lat lon : ℚ) :
    GoodLL (if inViewbox lat lon then (some lat, some lon) else emptyLL) := by
  split
  · intro a b h
    injection h with h1 h2
    injection h1 with h1
    injection h2 with h2
    subst h1
    subst h2
    assumption
  · exact goodLL_empty

theorem nominatim_query_good (env : Env) (q : Str) (ll : LL)
    (h : nominatim_query env q = .ok ll) : GoodLL ll := by
  unfold nominatim_query at h
  dsimp only at h
  split at h
  · injection h with h
    subst h
    exact goodLL_empty
  · unfold nomAfterSuffix at h
    split at h
    · cases h
    · rename_i lat lon heq
      injection h with h
      subst h
      exact goodLL_viewbox_filter lat lon
    · split at h
      · cases h
      · rename_i lat lon heq
        injection h with h
        subst h
        exact goodLL_viewbox_filter lat lon
      · injection h with h
        subst h
        exact goodLL_empty

theorem census_query_good (env : Env) (q : Str) (ll : LL)
    (h : census_query env q = .ok ll) : GoodLL ll := by
  unfold census_query at h
  dsimp only at h
  split at h
  · injection h with h
    subst h
    exact goodLL_empty
  · split at h
    · cases h
    · injection h with h
      subst h
      exact goodLL_empty
    · rename_i lat lon heq
      injection h with h
      subst h
      exact goodLL_viewbox_filter lat lon

theorem tryQuery_good (env : Env) (lbl q : Str) (st : St) :
    GoodLL (tryQuery env lbl q st).1 := by
  unfold tryQuery
  dsimp only
  split
  · exact goodLL_empty
  · split
    · rename_i ll heq
      have hg := nominatim_query_good env (cleanWS q) ll heq
      split <;> exact hg
    · exact goodLL_empty

theorem tryCensus_good (env : Env) (lbl q : Str) (st : St) :
    GoodLL (tryCensus env lbl q st).1 := by
  unfold tryCensus
  dsimp only
  split
  · exact goodLL_empty
  · split
    · rename_i ll heq
      have hg := census_query_good env (cleanWS q) ll heq
      split <;> exact hg
    · exact goodLL_empty

theorem overpass_find_address_good (env : Env) (hEnv : GoodEnv env) (n s : Str) :
    GoodLL (overpass_find_address env n s) := by
  unfold overpass_find_address
  dsimp only
  split
  · exact goodLL_empty
  · exact hEnv.2.2 _ _

theorem overpass_find_way_center_good (env : Env) (hEnv : GoodEnv env) (s : Str) :
    GoodLL (overpass_find_way_center env s) := by
  unfold overpass_find_way_center
  dsimp only
  split
  · exact goodLL_empty
  · exact hEnv.2.1 _

theorem overpass_find_intersection_good (env : Env) (hEnv : GoodEnv env) (a b : Str) :
    GoodLL (overpass_find_intersection env a b) := by
  unfold overpass_find_intersection
  dsimp only
  split
  · exact goodLL_empty
  · exact hEnv.1 _ _

theorem opAddrSite_good (env : Env) (hEnv : GoodEnv env) (n : Nat) (v : Str) (st : St) :
    GoodLL (opAddrSite env n v st).1 := by
  unfold opAddrSite
  dsimp only
  have := overpass_find_address_good env hEnv (natToStr n) v
  split <;> exact this

theorem wayCenterSite_good (env : Env) (hEnv : GoodEnv env) (c : Str) (st : St) :
    GoodLL (wayCenterSite env c st).1 := by
  unfold wayCenterSite
  dsimp only
  have := overpass_find_way_center_good env hEnv c
  split <;> exact this

theorem opInterLoop_good (env : Env) (hEnv : GoodEnv env) :
    ∀ (ps : List (Str × Str)) (st : St), GoodLL (opInterLoop env ps st).1 := by
  intro ps
  induction ps with
  | nil => intro st; exact goodLL_empty
  | cons p rest ih =>
    intro st
    obtain ⟨a, b⟩ := p
    unfold opInterLoop
    dsimp only
    have := overpass_find_intersection_good env hEnv a b
    split
    · exact ih _
    · exact this

theorem blockStep_good (env : Env) (hEnv : GoodEnv env) (N : Nat) (street sExp : Str)
    (st : St) : GoodLL (blockStep env N street sExp st).1 := by
  unfold blockStep
  dsimp only
  apply andThen_good
  · apply andThen_good
    · split
      · exact loopTry_good _ _ (fun v st2 => tryQuery_good env _ v st2) goodLL_empty _ _
      · apply andThen_good
        · apply andThen_good
          · apply loopTry_good _ _ ?_ goodLL_empty
            intro n st2
            exact loopTry_good _ _ (fun v st3 => tryQuery_good env _ _ st3) goodLL_empty _ _
          · intro st2
            apply loopTry_good _ _ ?_ goodLL_empty
            intro n st3
            exact loopTry_good _ _ (fun v st4 => tryCensus_good env _ _ st4) goodLL_empty _ _
        · intro st2
          apply loopTry_good _ _ ?_ goodLL_empty
          intro n st3
          exact loopTry_good _ _ (fun v st4 => opAddrSite_good env hEnv n v st4) goodLL_empty _ _
    · intro st2
      exact loopTry_good _ _ (fun v st3 => tryQuery_good env _ v st3) goodLL_empty _ _
  · intro st2
    exact loopTry_good _ _ (fun c st3 => wayCenterSite_good env hEnv c st3) goodLL_empty _ _

theorem interStep_good (env : Env) (hEnv : GoodEnv env) (a2 : Str) (st : St) :
    GoodLL (interStep env a2 st).1 := by
  unfold interStep
  dsimp only
  split
  · split
    · apply andThen_good
      · exact loopTry_good _ _ (fun q st2 => tryQuery_good env _ q st2) goodLL_empty _ _
      · intro st2
        exact opInterLoop_good env hEnv _ _
    · exact goodLL_empty
  · exact goodLL_empty

theorem simplifiedStep_good (env : Env) (a2 : Str) (st : St) :
    GoodLL (simplifiedStep env a2 st).1 := by
  unfold simplifiedStep
  dsimp only
  split
  · exact tryQuery_good env _ _ st
  · exact goodLL_empty

theorem finalTrimStep_good (env : Env) (raw : Str) (st : St) :
    GoodLL (finalTrimStep env raw st).1 := tryQuery_good env _ _ st

theorem addrTagStep_good (env : Env) (hEnv : GoodEnv env) (ndor : Str) (st : St) :
    GoodLL (addrTagStep env ndor st).1 := by
  unfold addrTagStep
  split
  · exact goodLL_empty
  · rename_i hn street0 heq
    dsimp only
    split
    · have := overpass_find_address_good env hEnv hn street0
      split <;> exact this
    · have := overpass_find_address_good env hEnv hn (stripUnit street0)
      split <;> exact this

theorem afterBlock_good (env : Env) (hEnv : GoodEnv env) (raw ndor a2 : Str)
    (r : LL × St) (hr : GoodLL r.1) : GoodLL (afterBlock env raw ndor a2 r).1 := by
  unfold afterBlock
  apply andThen_good
  · apply andThen_good
    · apply andThen_good
      · apply andThen_good
        · exact hr
        · intro st2; exact interStep_good env hEnv a2 st2
      · intro st2; exact simplifiedStep_good env a2 st2
    · intro st2; exact finalTrimStep_good env raw st2
  · intro st2; exact addrTagStep_good env hEnv ndor st2

theorem afterBasics_good (env : Env) (hEnv : GoodEnv env) (raw ndor : Str) (st : St) :
    GoodLL (afterBasics env raw ndor st).1 := by
  unfold afterBasics
  split
  · exact afterBlock_good env hEnv raw ndor _ _ (blockStep_good env hEnv _ _ _ st)
  · exact afterBlock_good env hEnv raw ndor _ _ goodLL_empty

theorem resolveCore_good (env : Env) (hEnv : GoodEnv env) (raw nd : Str) :
    GoodLL (resolveCore env raw nd).1 := by
  unfold resolveCore
  apply andThen_good
  · apply andThen_good
    · apply andThen_good
      · apply andThen_good
        · apply andThen_good
          · apply andThen_good
            · exact guardStep_good _ _ _ _ (fun st2 => tryQuery_good env _ _ st2) goodLL_empty
            · intro st2
              exact guardStep_good _ _ _ _ (fun st3 => tryQuery_good env _ _ st3) goodLL_empty
          · intro st2
            exact guardStep_good _ _ _ _ (fun st3 => tryQuery_good env _ _ st3) goodLL_empty
        · intro st2
          exact guardStep_good _ _ _ _ (fun st3 => tryQuery_good env _ _ st3) goodLL_empty
      · intro st2
        exact guardStep_good _ _ _ _ (fun st3 => tryQuery_good env _ _ st3) goodLL_empty
    · intro st2
      exact guardStep_good _ _ _ _ (fun st3 => tryCensus_good env _ _ st3) goodLL_empty
  · intro st2
    exact afterBasics_good env hEnv raw _ st2

/-! ### Pushing a state invariant through the pipeline -/

theorem blockStep_pres (P : St → Prop) (env : Env) (hp : PresPrim P env) :
    ∀ (N : Nat) (street sExp : Str) (st : St), P st → P (blockStep env N street sExp st).2 := by
  intro N street sExp st hst
  obtain ⟨h1, h2, h3, h4, h5, h6⟩ := hp
  unfold blockStep
  dsimp only
  apply andThen_pres
  · apply andThen_pres
    · split
      · exact loopTry_pres P _ (fun v st2 => h1 _ v st2) _ _ hst
      · apply andThen_pres
        · apply andThen_pres
          · refine loopTry_pres P _ ?_ _ _ hst
            intro n st2 hP
            exact loopTry_pres P _ (fun v st3 => h1 _ _ st3) _ _ hP
          · intro st2 hP
            refine loopTry_pres P _ ?_ _ _ hP
            intro n st3 hQ
            exact loopTry_pres P _ (fun v st4 => h2 _ _ st4) _ _ hQ
        · intro st2 hP
          refine loopTry_pres P _ ?_ _ _ hP
          intro n st3 hQ
          exact loopTry_pres P _ (fun v st4 => h3 n v st4) _ _ hQ
    · intro st2 hP
      exact loopTry_pres P _ (fun v st3 => h1 _ v st3) _ _ hP
  · intro st2 hP
    exact loopTry_pres P _ (fun c st3 => h4 c st3) _ _ hP

theorem interStep_pres (P : St → Prop) (env : Env) (hp : PresPrim P env) :
    ∀ (a2 : Str) (st : St), P st → P (interStep env a2 st).2 := by
  intro a2 st hst
  obtain ⟨h1, h2, h3, h4, h5, h6⟩ := hp
  unfold interStep
  dsimp only
  split
  · split
    · apply andThen_pres
      · exact loopTry_pres P _ (fun q st2 => h1 _ q st2) _ _ hst
      · intro st2 hP
        exact h5 _ st2 hP
    · exact hst
  · exact hst

theorem simplifiedStep_pres (P : St → Prop) (env : Env) (hp : PresPrim P env) :
    ∀ (a2 : Str) (st : St), P st → P (simplifiedStep env a2 st).2 := by
  intro a2 st hst
  unfold simplifiedStep
  dsimp only
  split
  · exact hp.1 _ _ st hst
  · exact hst

theorem finalTrimStep_pres (P : St → Prop) (env : Env) (hp : PresPrim P env) :
    ∀ (raw : Str) (st : St), P st → P (finalTrimStep env raw st).2 := by
  intro raw st hst
  exact hp.1 _ _ st hst

theorem afterBlock_pres (P : St → Prop) (env : Env) (hp : PresPrim P env)
    (raw ndor a2 : Str) (r : LL × St) (hr : P r.2) : P (afterBlock env raw ndor a2 r).2 := by
  unfold afterBlock
  apply andThen_pres
  · apply andThen_pres
    · apply andThen_pres
      · apply andThen_pres
        · exact hr
        · intro st2 hP
          exact interStep_pres P env hp a2 st2 hP
      · intro st2 hP
        exact simplifiedStep_pres P env hp a2 st2 hP
    · intro st2 hP
      exact finalTrimStep_pres P env hp raw st2 hP
  · intro st2 hP
    exact hp.2.2.2.2.2 ndor st2 hP

theorem afterBasics_pres (P : St → Prop) (env : Env) (hp : PresPrim P env)
    (raw ndor : Str) (st : St) (hst : P st) : P (afterBasics env raw ndor st).2 := by
  unfold afterBasics
  split
  · exact afterBlock_pres P env hp raw ndor _ _ (blockStep_pres P env hp _ _ _ st hst)
  · exact afterBlock_pres P env hp raw ndor _ _ hst

theorem resolveCore_pres (P : St → Prop) (env : Env) (hp : PresPrim P env)
    (raw nd : Str) (h0 : P st0) : P (resolveCore env raw nd).2 := by
  unfold resolveCore
  dsimp only
  apply andThen_pres
  · apply andThen_pres
    · apply andThen_pres
      · apply andThen_pres
        · apply andThen_pres
          · apply andThen_pres
            · exact guardStep_pres P _ _ _ (fun st2 => hp.1 _ _ st2) h0
            · intro st2 hP
              exact guardStep_pres P _ _ _ (fun st3 => hp.1 _ _ st3) hP
          · intro st2 hP
            exact guardStep_pres P _ _ _ (fun st3 => hp.1 _ _ st3) hP
        · intro st2 hP
          exact guardStep_pres P _ _ _ (fun st3 => hp.1 _ _ st3) hP
      · intro st2 hP
        exact guardStep_pres P _ _ _ (fun st3 => hp.1 _ _ st3) hP
    · intro st2 hP
      exact guardStep_pres P _ _ _ (fun st3 => hp.2.1 _ _ st3) hP
  · intro st2 hP
    exact afterBasics_pres P env hp raw _ st2 hP

theorem geocode_pres (P : St → Prop) (env : Env) (address : Str) (cache : Cache)
    (retry : Bool) (hp : PresPrim P env) (h0 : P st0) :
    P (geocode_address env address cache retry).2.2 := by
  unfold geocode_address
  split
  · exact h0
  · dsimp only
    split
    · split
      · exact h0
      · exact resolveCore_pres P env hp _ _ h0
    · exact resolveCore_pres P env hp _ _ h0

/-! ### The attempt-count and sleep-count invariants hold of every primitive -/

theorem countInv_tryQuery (env : Env) (lbl q : Str) (st : St) (h : CountInv st) :
    CountInv (tryQuery env lbl q st).2 := by
  unfold tryQuery
  dsimp only
  split
  · exact h
  · split
    · split <;>
        (unfold CountInv at h ⊢
         simp only [List.length_append, List.length_cons, List.length_nil]
         omega)
    · unfold CountInv at h ⊢
      simp only [List.length_append, List.length_cons, List.length_nil]
      omega

theorem countInv_tryCensus (env : Env) (lbl q : Str) (st : St) (h : CountInv st) :
    CountInv (tryCensus env lbl q st).2 := by
  unfold tryCensus
  dsimp only
  split
  · exact h
  · split
    · split <;>
        (unfold CountInv at h ⊢
         simp only [List.length_append, List.length_cons, List.length_nil]
         omega)
    · unfold CountInv at h ⊢
      simp only [List.length_append, List.length_cons, List.length_nil]
      omega

theorem countInv_opAddrSite (env : Env) (n : Nat) (v : Str) (st : St) (h : CountInv st) :
    CountInv (opAddrSite env n v st).2 := by
  unfold opAddrSite
  dsimp only
  split <;>
    (unfold CountInv at h ⊢
     simp only [List.length_append, List.length_cons, List.length_nil]
     omega)

theorem countInv_wayCenterSite (env : Env) (c : Str) (st : St) (h : CountInv st) :
    CountInv (wayCenterSite env c st).2 := by
  unfold wayCenterSite
  dsimp only
  split <;>
    (unfold CountInv at h ⊢
     simp only [List.length_append, List.length_cons, List.length_nil]
     omega)

theorem countInv_opInterLoop (env : Env) :
    ∀ (ps : List (Str × Str)) (st : St), CountInv st → CountInv (opInterLoop env ps st).2 := by
  intro ps
  induction ps with
  | nil => intro st h; exact h
  | cons p rest ih =>
    intro st h
    obtain ⟨a, b⟩ := p
    unfold opInterLoop
    dsimp only
    split
    · apply ih
      unfold CountInv at h ⊢
      simp only
      omega
    · unfold CountInv at h ⊢
      simp only [List.length_append, List.length_cons, List.length_nil]
      omega

theorem countInv_addrTagStep (env : Env) (ndor : Str) (st : St) (h : CountInv st) :
    CountInv (addrTagStep env ndor st).2 := by
  unfold addrTagStep
  split
  · exact h
  · dsimp only
    split <;> split <;>
      (unfold CountInv at h ⊢
       simp only [List.length_append, List.length_cons, List.length_nil]
       omega)

theorem countInv_prims (env : Env) : PresPrim CountInv env :=
  ⟨fun lbl q st => countInv_tryQuery env lbl q st,
   fun lbl q st => countInv_tryCensus env lbl q st,
   fun n v st => countInv_opAddrSite env n v st,
   fun c st => countInv_wayCenterSite env c st,
   fun ps st => countInv_opInterLoop env ps st,
   fun ndor st => countInv_addrTagStep env ndor st⟩

theorem sleepInv_tryQuery (env : Env) (lbl q : Str) (st : St) (h : SleepInv st) :
    SleepInv (tryQuery env lbl q st).2 := by
  unfold tryQuery
  dsimp only
  split
  · exact h
  · split
    · split <;> (unfold SleepInv at h ⊢; simp only; omega)
    · unfold SleepInv at h ⊢
      simp only
      omega

theorem sleepInv_tryCensus (env : Env) (lbl q : Str) (st : St) (h : SleepInv st) :
    SleepInv (tryCensus env lbl q st).2 := by
  unfold tryCensus
  dsimp only
  split
  · exact h
  · split
    · split <;> (unfold SleepInv at h ⊢; simp only; omega)
    · unfold SleepInv at h ⊢
      simp only
      omega

theorem sleepInv_opAddrSite (env : Env) (n : Nat) (v : Str) (st : St) (h : SleepInv st) :
    SleepInv (opAddrSite env n v st).2 := by
  unfold opAddrSite
  dsimp only
  split <;> (unfold SleepInv at h ⊢; simp only; omega)

theorem sleepInv_wayCenterSite (env : Env) (c : Str) (st : St) (h : SleepInv st) :
    SleepInv (wayCenterSite env c st).2 := by
  unfold wayCenterSite
  dsimp only
  split <;> (unfold SleepInv at h ⊢; simp only; omega)

theorem sleepInv_opInterLoop (env : Env) :
    ∀ (ps : List (Str × Str)) (st : St), SleepInv st → SleepInv (opInterLoop env ps st).2 := by
  intro ps
  induction ps with
  | nil => intro st h; exact h
  | cons p rest ih =>
    intro st h
    obtain ⟨a, b⟩ := p
    unfold opInterLoop
    dsimp only
    split
    · apply ih
      unfold SleepInv at h ⊢
      simp only
      omega
    · unfold SleepInv at h ⊢
      simp only
      omega

theorem sleepInv_addrTagStep (env : Env) (ndor : Str) (st : St) (h : SleepInv st) :
    SleepInv (addrTagStep env ndor st).2 := by
  unfold addrTagStep
  split
  · exact h
  · dsimp only
    split <;> split <;>
      (unfold SleepInv at h ⊢
       simp only
       omega)

theorem sleepInv_prims (env : Env) : PresPrim SleepInv env :=
  ⟨fun lbl q st => sleepInv_tryQuery env lbl q st,
   fun lbl q st => sleepInv_tryCensus env lbl q st,
   fun n v st => sleepInv_opAddrSite env n v st,
   fun c st => sleepInv_wayCenterSite env c st,
   fun ps st => sleepInv_opInterLoop env ps st,
   fun ndor st => sleepInv_addrTagStep env ndor st⟩

/-! ### Exact traces under an all-failing environment -/

theorem andThen_of_empty (r : LL × St) (f : St → LL × St) (h : r.1 = emptyLL) :
    andThen r f = f r.2 := by
  unfold andThen
  rw [if_pos h]

theorem nominatim_query_fail (env : Env) (hF : FailEnv env) (q : Str) :
    nominatim_query env q = .ok emptyLL := by
  unfold nominatim_query
  dsimp only
  split
  · rfl
  · unfold nomAfterSuffix
    rw [hF.1, hF.2.1]

theorem census_query_fail (env : Env) (hF : FailEnv env) (q : Str) :
    census_query env q = .ok emptyLL := by
  unfold census_query
  dsimp only
  split
  · rfl
  · rw [hF.2.2.1]

theorem tryQuery_fail (env : Env) (hF : FailEnv env) (lbl q : Str) (st : St)
    (hq : cleanWS q ≠ []) :
    tryQuery env lbl q st = (emptyLL, bumpNom st lbl (cleanWS q)) := by
  unfold tryQuery
  dsimp only
  rw [if_neg hq, nominatim_query_fail env hF]
  rfl

theorem tryCensus_fail (env : Env) (hF : FailEnv env) (lbl q : Str) (st : St)
    (hq : cleanWS q ≠ []) :
    tryCensus env lbl q st = (emptyLL, bumpCen st lbl (cleanWS q)) := by
  unfold tryCensus
  dsimp only
  rw [if_neg hq, census_query_fail env hF]
  rfl

theorem opAddrSite_fail (env : Env) (hF : FailEnv env) (n : Nat) (v : Str) (st : St) :
    opAddrSite env n v st = (emptyLL, bumpOpA st (natToStr n ++ ' ' :: v)) := by
  unfold opAddrSite
  dsimp only
  have hores : overpass_find_address env (natToStr n) v = emptyLL := by
    unfold overpass_find_address
    dsimp only
    split
    · rfl
    · exact hF.2.2.2.2.2 _ _
  rw [hores]
  rfl

theorem wayCenterSite_fail (env : Env) (hF : FailEnv env) (c : Str) (st : St) :
    wayCenterSite env c st = (emptyLL, bumpWC st c) := by
  unfold wayCenterSite
  dsimp only
  have hores : overpass_find_way_center env c = emptyLL := by
    unfold overpass_find_way_center
    dsimp only
    split
    · rfl
    · exact hF.2.2.2.2.1 _
  rw [hores]
  rfl

/-- A loop whose every step fails while appending a known attempt list
produces the concatenation of those lists, in order. -/
theorem loopTry_trace {α : Type} (f : α → St → LL × St) (A : α → List (Str × Str)) :
    ∀ (l : List α),
      (∀ a ∈ l, ∀ st, (f a st).1 = emptyLL ∧ (f a st).2.attempts = st.attempts ++ A a) →
      ∀ st, (loopTry f l st).1 = emptyLL ∧
        (loopTry f l st).2.attempts = st.attempts ++ l.flatMap A := by
  intro l
  induction l with
  | nil => intro _ st; exact ⟨rfl, by simp [loopTry]⟩
  | cons a rest ih =>
    intro hall st
    obtain ⟨h1, h2⟩ := hall a (List.mem_cons_self a rest) st
    unfold loopTry
    dsimp only
    rw [if_pos h1]
    obtain ⟨ih1, ih2⟩ := ih (fun b hb => hall b (List.mem_cons_of_mem a hb)) (f a st).2
    refine ⟨ih1, ?_⟩
    rw [ih2, h2, List.flatMap_cons, List.append_assoc]

/-! ### Cleanliness of the synthesized block queries -/

theorem digCh_not_ws (d : Nat) : isWS (digCh d) = false := by
  unfold digCh
  split_ifs <;> decide

theorem natToStrAux_noWS : ∀ (fuel n : Nat), ∀ c ∈ natToStrAux fuel n, isWS c = false := by
  intro fuel
  induction fuel with
  | zero => intro n c hc; simp [natToStrAux] at hc
  | succ f ih =>
    intro n c hc
    unfold natToStrAux at hc
    split at hc
    · simp at hc
    · rcases List.mem_append.mp hc with h | h
      · exact ih _ c h
      · simp only [List.mem_singleton] at h
        subst h
        exact digCh_not_ws _

theorem natToStr_noWS (n : Nat) : noWS (natToStr n) := by
  intro c hc
  unfold natToStr at hc
  split at hc
  · simp only [List.mem_singleton] at hc
    subst hc
    decide
  · exact natToStrAux_noWS _ _ c hc

theorem natToStr_ne_nil (n : Nat) : natToStr n ≠ [] := by
  unfold natToStr
  split
  · simp
  · unfold natToStrAux
    rw [if_neg (by assumption)]
    simp

theorem joinSpace_cons_of_ne (t : Str) (l : List Str) (hl : l ≠ []) :
    joinSpace (t :: l) = t ++ ' ' :: joinSpace l := by
  cases l with
  | nil => exact absurd rfl hl
  | cons t2 l2 => rfl

theorem splitWS_ne_nil (v : Str) (hv : cleanWS v = v) (hvne : v ≠ []) : splitWS v ≠ [] := by
  intro h3
  apply hvne
  rw [← hv]
  unfold cleanWS
  rw [h3]
  rfl

theorem cleanWS_cat (d v : Str) (hd : d ≠ []) (hdw : noWS d) (hv : cleanWS v = v)
    (hvne : v ≠ []) : cleanWS (d ++ ' ' :: v) = d ++ ' ' :: v := by
  have hsv : splitWS v ≠ [] := splitWS_ne_nil v hv hvne
  show joinSpace (splitWS (d ++ ' ' :: v)) = d ++ ' ' :: v
  rw [splitWS_append_space, splitWS_single d hd hdw, List.singleton_append,
    joinSpace_cons_of_ne d (splitWS v) hsv]
  have hv2 : joinSpace (splitWS v) = v := hv
  rw [hv2]

theorem pushFold_clean (l : List Str) (acc : List Str)
    (hacc : ∀ v ∈ acc, cleanWS v = v ∧ v ≠ []) :
    ∀ v ∈ l.foldl (fun acc2 v0 =>
        let v := cleanWS v0
        if v ≠ [] ∧ v ∉ acc2 then acc2 ++ [v] else acc2) acc,
      cleanWS v = v ∧ v ≠ [] := by
  induction l generalizing acc with
  | nil => exact hacc
  | cons a rest ih =>
    simp only [List.foldl_cons]
    apply ih
    dsimp only
    split
    · intro v hv
      rcases List.mem_append.mp hv with h | h
      · exact hacc v h
      · simp only [List.mem_singleton] at h
        subst h
        rename_i hcond
        exact ⟨cleanWS_idem a, hcond.1⟩
    · exact hacc

theorem mkVariants_clean (a b : Str) : ∀ v ∈ mkVariants a b, cleanWS v = v ∧ v ≠ [] :=
  pushFold_clean [a, b] [] (by intro v hv; simp at hv)

theorem flatMap_one {α β : Type} (l : List α) (g : α → β) :
    l.flatMap (fun a => [g a]) = l.map g := by
  induction l with
  | nil => rfl
  | cons a rest ih => simp [List.flatMap_cons, ih]

/-- Chaining two all-fail segments concatenates their attempt logs. -/
theorem andThen_trace (r : LL × St) (f : St → LL × St) (base L1 L2 : List (Str × Str))
    (hr1 : r.1 = emptyLL) (hr2 : r.2.attempts = base ++ L1)
    (hf : ∀ st2, (f st2).1 = emptyLL ∧ (f st2).2.attempts = st2.attempts ++ L2) :
    (andThen r f).1 = emptyLL ∧ (andThen r f).2.attempts = base ++ (L1 ++ L2) := by
  rw [andThen_of_empty r f hr1]
  obtain ⟨h1, h2⟩ := hf r.2
  exact ⟨h1, by rw [h2, hr2, List.append_assoc]⟩

/-- Under an all-failing environment the block path records exactly the
attempt sequence described by claim C6, in order, and resolves nothing. -/
theorem blockStep_trace (env : Env) (hF : FailEnv env) (N : Nat) (street sExp : Str)
    (st : St) :
    (blockStep env N street sExp st).1 = emptyLL ∧
      (blockStep env N street sExp st).2.attempts
        = st.attempts ++ specBlockAttempts N (mkVariants sExp street) street sExp := by
  have hvar := mkVariants_clean sExp street
  have hTQv : ∀ (lbl : Str), ∀ v ∈ mkVariants sExp street, ∀ st2 : St,
      (tryQuery env lbl v st2).1 = emptyLL ∧
        (tryQuery env lbl v st2).2.attempts = st2.attempts ++ [(lbl, v)] := by
    intro lbl v hv st2
    obtain ⟨hc, hn⟩ := hvar v hv
    have heq := tryQuery_fail env hF lbl v st2 (by rw [hc]; exact hn)
    rw [heq, hc]
    exact ⟨rfl, rfl⟩
  have hnum : ∀ (n : Nat), ∀ v ∈ mkVariants sExp street,
      cleanWS (natToStr n ++ ' ' :: v) = natToStr n ++ ' ' :: v := by
    intro n v hv
    exact cleanWS_cat _ _ (natToStr_ne_nil n) (natToStr_noWS n) (hvar v hv).1 (hvar v hv).2
  have hLoopTQ : ∀ (lbl : Str) (st2 : St),
      (loopTry (fun n st3 => loopTry (fun v st4 =>
          tryQuery env lbl (natToStr n ++ ' ' :: v) st4) (mkVariants sExp street) st3)
        [N, N + 50, N + 99] st2).1 = emptyLL ∧
      (loopTry (fun n st3 => loopTry (fun v st4 =>
          tryQuery env lbl (natToStr n ++ ' ' :: v) st4) (mkVariants sExp street) st3)
        [N, N + 50, N + 99] st2).2.attempts
        = st2.attempts ++ specBlockCross lbl [N, N + 50, N + 99] (mkVariants sExp street) := by
    intro lbl st2
    refine loopTry_trace _
      (fun n => (mkVariants sExp street).map (fun v => (lbl, natToStr n ++ ' ' :: v)))
      [N, N + 50, N + 99] ?_ st2
    intro n _ st3
    have hin := loopTry_trace (fun v st4 => tryQuery env lbl (natToStr n ++ ' ' :: v) st4)
      (fun v => [(lbl, natToStr n ++ ' ' :: v)]) (mkVariants sExp street) ?_ st3
    · exact ⟨hin.1, by rw [hin.2, flatMap_one]⟩
    · intro v hv st4
      dsimp only
      have heq := tryQuery_fail env hF lbl (natToStr n ++ ' ' :: v) st4
        (by rw [hnum n v hv]; simp [natToStr_ne_nil n])
      rw [heq, hnum n v hv]
      exact ⟨rfl, rfl⟩
  have hLoopCen : ∀ (st2 : St),
      (loopTry (fun n st3 => loopTry (fun v st4 =>
          tryCensus env ("census_block_to_address".toList) (natToStr n ++ ' ' :: v) st4)
          (mkVariants sExp street) st3) [N, N + 50, N + 99] st2).1 = emptyLL ∧
      (loopTry (fun n st3 => loopTry (fun v st4 =>
          tryCensus env ("census_block_to_address".toList) (natToStr n ++ ' ' :: v) st4)
          (mkVariants sExp street) st3) [N, N + 50, N + 99] st2).2.attempts
        = st2.attempts ++ specBlockCross ("census_block_to_address".toList)
            [N, N + 50, N + 99] (mkVariants sExp street) := by
    intro st2
    refine loopTry_trace _
      (fun n => (mkVariants sExp street).map
        (fun v => (("census_block_to_address".toList : Str), natToStr n ++ ' ' :: v)))
      [N, N + 50, N + 99] ?_ st2
    intro n _ st3
    have hin := loopTry_trace (fun v st4 =>
        tryCensus env ("census_block_to_address".toList) (natToStr n ++ ' ' :: v) st4)
      (fun v => [(("census_block_to_address".toList : Str), natToStr n ++ ' ' :: v)])
      (mkVariants sExp street) ?_ st3
    · exact ⟨hin.1, by rw [hin.2, flatMap_one]⟩
    · intro v hv st4
      dsimp only
      have heq := tryCensus_fail env hF ("census_block_to_address".toList)
        (natToStr n ++ ' ' :: v) st4 (by rw [hnum n v hv]; simp [natToStr_ne_nil n])
      rw [heq, hnum n v hv]
      exact ⟨rfl, rfl⟩
  have hLoopOA : ∀ (st2 : St),
      (loopTry (fun n st3 => loopTry (fun v st4 => opAddrSite env n v st4)
          (mkVariants sExp street) st3) [N, N + 50, N + 99] st2).1 = emptyLL ∧
      (loopTry (fun n st3 => loopTry (fun v st4 => opAddrSite env n v st4)
          (mkVariants sExp street) st3) [N, N + 50, N + 99] st2).2.attempts
        = st2.attempts ++ specBlockCross ("overpass_addr".toList)
            [N, N + 50, N + 99] (mkVariants sExp street) := by
    intro st2
    refine loopTry_trace _
      (fun n => (mkVariants sExp street).map
        (fun v => (("overpass_addr".toList : Str), natToStr n ++ ' ' :: v)))
      [N, N + 50, N + 99] ?_ st2
    intro n _ st3
    have hin := loopTry_trace (fun v st4 => opAddrSite env n v st4)
      (fun v => [(("overpass_addr".toList : Str), natToStr n ++ ' ' :: v)])
      (mkVariants sExp street) ?_ st3
    · exact ⟨hin.1, by rw [hin.2, flatMap_one]⟩
    · intro v hv st4
      dsimp only
      rw [opAddrSite_fail env hF n v st4]
      exact ⟨rfl, rfl⟩
  have hLoopSO : ∀ (st2 : St),
      (loopTry (fun v st3 => tryQuery env ("block_street_only".toList) v st3)
        (mkVariants sExp street) st2).1 = emptyLL ∧
      (loopTry (fun v st3 => tryQuery env ("block_street_only".toList) v st3)
        (mkVariants sExp street) st2).2.attempts
        = st2.attempts ++ (mkVariants sExp street).map
            (fun v => (("block_street_only".toList : Str), v)) := by
    intro st2
    have h := loopTry_trace (fun v st3 => tryQuery env ("block_street_only".toList) v st3)
      (fun v => [(("block_street_only".toList : Str), v)]) (mkVariants sExp street)
      (fun v hv st3 => hTQv _ v hv st3) st2
    exact ⟨h.1, by rw [h.2, flatMap_one]⟩
  have hLoopWC : ∀ (cs : List Str) (st2 : St),
      (loopTry (fun c st3 => wayCenterSite env c st3) cs st2).1 = emptyLL ∧
      (loopTry (fun c st3 => wayCenterSite env c st3) cs st2).2.attempts
        = st2.attempts ++ cs.map (fun c => (("overpass_way_center".toList : Str), c)) := by
    intro cs st2
    have h := loopTry_trace (fun c st3 => wayCenterSite env c st3)
      (fun c => [(("overpass_way_center".toList : Str), c)]) cs
      (fun c _ st3 => by
        dsimp only
        rw [wayCenterSite_fail env hF c st3]
        exact ⟨rfl, rfl⟩) st2
    exact ⟨h.1, by rw [h.2, flatMap_one]⟩
  unfold blockStep
  dsimp only
  by_cases hN : N = 0
  · subst hN
    rw [if_pos rfl]
    have h0 := loopTry_trace (fun v st2 =>
        tryQuery env ("block_0_street_only".toList) v st2)
      (fun v => [(("block_0_street_only".toList : Str), v)]) (mkVariants sExp street)
      (fun v hv st2 => hTQv _ v hv st2) st
    have h0b : (loopTry (fun v st2 => tryQuery env ("block_0_street_only".toList) v st2)
        (mkVariants sExp street) st).2.attempts
        = st.attempts ++ (mkVariants sExp street).map
            (fun v => (("block_0_street_only".toList : Str), v)) := by
      rw [h0.2, flatMap_one]
    have app1 := andThen_trace _ _ st.attempts _ _ h0.1 h0b hLoopSO
    have app2 := andThen_trace _ _ st.attempts _ _ app1.1 app1.2 (hLoopWC ((if street ≠ [] then [street] else []) ++
        if sExp ≠ [] ∧ sExp ≠ street then [sExp] else []))
    refine ⟨app2.1, ?_⟩
    rw [app2.2]
    simp [specBlockAttempts, wayCands, List.append_assoc]
  · rw [if_neg hN]
    have hA := hLoopTQ ("block_to_address".toList) st
    have appAB := andThen_trace _ _ st.attempts _ _ hA.1 hA.2 hLoopCen
    have appABC := andThen_trace _ _ st.attempts _ _ appAB.1 appAB.2 hLoopOA
    have appSO := andThen_trace _ _ st.attempts _ _ appABC.1 appABC.2 hLoopSO
    have appWC := andThen_trace _ _ st.attempts _ _ appSO.1 appSO.2 (hLoopWC ((if street ≠ [] then [street] else []) ++
        if sExp ≠ [] ∧ sExp ≠ street then [sExp] else []))
    refine ⟨appWC.1, ?_⟩
    rw [appWC.2]
    simp [specBlockAttempts, hN, wayCands, List.append_assoc]

/-! ### Remaining helper lemmas for the claim theorems -/

theorem cacheHit_eq (env : Env) (address : Str) (cache : Cache) (retry : Bool) (v : LL)
    (hne : address ≠ []) (hc : cache (upperL (cleanWS address)) = some v)
    (hfast : retry = false ∨ isFailedLL v = false) :
    geocode_address env address cache retry = (v, cache, st0) := by
  unfold geocode_address
  rw [if_neg hne]
  dsimp only
  rw [hc]
  dsimp only
  have hcond : (!retry || !isFailedLL v) = true := by
    rcases hfast with h | h <;> simp [h]
  rw [hcond]
  rfl

theorem splitAux_all_ws (s : Str) (h : ∀ c ∈ s, isWS c = true) : splitAux s = ([], []) := by
  induction s with
  | nil => rfl
  | cons c t ih =>
    rw [splitAux_cons, ih (fun d hd => h d (List.mem_cons_of_mem c hd)),
      splitStep_ws c _ (h c (List.mem_cons_self c t))]
    rfl

theorem cleanWS_all_ws (s : Str) (h : ∀ c ∈ s, isWS c = true) : cleanWS s = [] := by
  unfold cleanWS splitWS
  rw [splitAux_all_ws s h]
  rfl

theorem resolveCore_nil (env : Env) : resolveCore env [] [] = (emptyLL, st0) := rfl

/-! ## Claim theorems -/

/-- C1, counterexample: with an Overpass address-tag oracle answering
`(0, 0)` — far outside the bounding region — `geocode_address` returns
that coordinate and caches it as a success.  Overpass results bypass
`_in_viewbox` entirely, so the claim as stated is false. -/
theorem geocode_overpass_out_of_region :
    (geocode_address envOutOfRegion ("100 BLOCK MAIN".toList) cache0 true).1
        = (some 0, some 0) ∧
      inViewbox 0 0 = false ∧
      (geocode_address envOutOfRegion ("100 BLOCK MAIN".toList) cache0 true).2.1
          ("100 BLOCK MAIN".toList) = some (some 0, some 0) := by
  refine ⟨by decide, ?_, by decide⟩
  unfold inViewbox
  rw [decide_eq_false (by norm_num : ¬ (38.80 : ℚ) ≤ 0)]
  rfl

/-- C1 (amended): provided every Overpass oracle response is itself
in-region or null, and every cached value is in-region or not a full
success, every coordinate `geocode_address` returns and every value it
leaves in the cache satisfies the containment invariant.  (Nominatim and
Census results are containment-checked by the code itself; Overpass
results are trusted unchecked, hence the hypothesis on them.) -/
theorem geocode_region_containment (env : Env) (address : Str) (cache : Cache)
    (retry : Bool) (hEnv : GoodEnv env) (hCache : ∀ k v, cache k = some v → GoodLL v) :
    GoodLL (geocode_address env address cache retry).1 ∧
      ∀ k v, (geocode_address env address cache retry).2.1 k = some v → GoodLL v := by
  unfold geocode_address
  split
  · exact ⟨goodLL_empty, hCache⟩
  · dsimp only
    split
    · rename_i v0 hv0
      split
      · exact ⟨hCache _ v0 hv0, hCache⟩
      · refine ⟨resolveCore_good env hEnv _ _, ?_⟩
        intro k w hw
        dsimp only [updateCache] at hw
        by_cases hk : k = upperL (cleanWS address)
        · rw [if_pos hk] at hw
          injection hw with hw
          subst hw
          exact resolveCore_good env hEnv _ _
        · rw [if_neg hk] at hw
          exact hCache _ _ hw
    · refine ⟨resolveCore_good env hEnv _ _, ?_⟩
      intro k w hw
      dsimp only [updateCache] at hw
      by_cases hk : k = upperL (cleanWS address)
      · rw [if_pos hk] at hw
        injection hw with hw
        subst hw
        exact resolveCore_good env hEnv _ _
      · rw [if_neg hk] at hw
        exact hCache _ _ hw

/-- Witness for `geocode_region_containment` at a concrete, all-failing
environment and empty cache. -/
theorem geocode_region_containment_witness :
    GoodLL (geocode_address envFail ("BROADWAY".toList) cache0 true).1 :=
  (geocode_region_containment envFail ("BROADWAY".toList) cache0 true
    ⟨fun _ _ => goodLL_empty, fun _ => goodLL_empty, fun _ _ => goodLL_empty⟩
    (fun k v h => by simp [cache0] at h)).1

/-- C2, counterexample: on the intersection input `"AAA / BBB"` with all
providers failing, five Attempt records are logged but six provider
invocations are made (4 Nominatim intersection queries, 1 failed Overpass
shared-node lookup that logs nothing, 1 final-trim Nominatim query). -/
theorem geocode_attempt_missing_intersection :
    (geocode_address envFail ("AAA / BBB".toList) cache0 true).2.2.attempts.length = 5 ∧
      (geocode_address envFail ("AAA / BBB".toList) cache0 true).2.2.nomCalls +
          (geocode_address envFail ("AAA / BBB".toList) cache0 true).2.2.cenCalls +
          (geocode_address envFail ("AAA / BBB".toList) cache0 true).2.2.opCalls = 6 := by
  exact ⟨by decide, by decide⟩

/-- C2 (amended): across every run of `geocode_address`, the number of
Attempt records plus the number of failed Overpass shared-node
intersection lookups equals the number of provider invocations — i.e.
attempts are one-to-one with provider calls except that a failed
intersection lookup is never logged (only a successful one is). -/
theorem geocode_attempt_accounting (env : Env) (address : Str) (cache : Cache)
    (retry : Bool) : CountInv (geocode_address env address cache retry).2.2 :=
  geocode_pres CountInv env address cache retry (countInv_prims env) (by unfold CountInv; rfl)

/-- C3, counterexample: for the empty input, the cache fast path is never
reached — the empty-input short-circuit fires first — so a cached
in-region success under the empty-string key is not returned even with
`retry_failed_cache = false`. -/
theorem geocode_empty_input_ignores_cache :
    cacheEmptyKey (upperL (cleanWS [])) = some (some 39, some 92) ∧
      (geocode_address envFail [] cacheEmptyKey false).1 = emptyLL := by
  exact ⟨by decide, rfl⟩

/-- C3 (amended): for every non-empty input whose cache key (uppercased,
whitespace-normalized input) is present, if `retry_failed_cache` is false
or the cached value is a success, `geocode_address` returns the cached
value immediately with an untouched cache and a completely empty trace
(zero attempts, zero provider calls, zero sleeps). -/
theorem geocode_cache_fast_path (env : Env) (address : Str) (cache : Cache) (retry : Bool)
    (v : LL) (hne : address ≠ []) (hc : cache (upperL (cleanWS address)) = some v)
    (hfast : retry = false ∨ isFailedLL v = false) :
    geocode_address env address cache retry = (v, cache, st0) :=
  cacheHit_eq env address cache retry v hne hc hfast

/-- Witness for `geocode_cache_fast_path` at a concrete cached success. -/
theorem geocode_cache_fast_path_witness :
    geocode_address envFail ("X".toList)
        (updateCache cache0 ("X".toList) (some 39, some 92)) false
      = ((some 39, some 92),
          updateCache cache0 ("X".toList) (some 39, some 92), st0) :=
  geocode_cache_fast_path envFail ("X".toList)
    (updateCache cache0 ("X".toList) (some 39, some 92)) false
    (some 39, some 92) (by decide) (by decide) (Or.inl rfl)

/-- C4, counterexample: on `"100 BLOCK MAIN"` with all providers failing,
11 sleeps are performed for 16 provider network attempts (7 Nominatim +
4 Census + 5 Overpass); no sleep follows any Overpass call. -/
theorem geocode_no_sleep_for_overpass :
    (geocode_address envFail ("100 BLOCK MAIN".toList) cache0 true).2.2.sleeps = 11 ∧
      (geocode_address envFail ("100 BLOCK MAIN".toList) cache0 true).2.2.nomCalls +
          (geocode_address envFail ("100 BLOCK MAIN".toList) cache0 true).2.2.cenCalls +
          (geocode_address envFail ("100 BLOCK MAIN".toList) cache0 true).2.2.opCalls
        = 16 := by
  exact ⟨by decide, by decide⟩

/-- C4 (amended): in every run of `geocode_address` the number of
rate-limit sleeps equals the number of Nominatim invocations plus the
number of Census invocations — a sleep follows every free-text and
structured attempt, success or failure, but never an Overpass call. -/
theorem geocode_sleep_accounting (env : Env) (address : Str) (cache : Cache)
    (retry : Bool) : SleepInv (geocode_address env address cache retry).2.2 :=
  geocode_pres SleepInv env address cache retry (sleepInv_prims env) (by unfold SleepInv; rfl)

/-- C6: for every block-notation parse `(N, street)`, when no provider
resolves anything the block path attempts exactly the claim's candidate
sequence — street-only for `N = 0`, otherwise `{N, N+50, N+99}` crossed
with the (expanded-first) street variants as free-text, then structured,
then map-graph address queries, then the street-only and way-center
fallbacks; and on the concrete input `"1000 BLOCK E BROADWAY"` the
engine's block-to-address candidates are exactly 1000, 1050, 1099 against
both street variants. -/
theorem block_candidate_strategy :
    (∀ (env : Env) (N : Nat) (street sExp : Str) (st : St), FailEnv env →
        (blockStep env N street sExp st).1 = emptyLL ∧
          (blockStep env N street sExp st).2.attempts
            = st.attempts ++ specBlockAttempts N (mkVariants sExp street) street sExp) ∧
      ((geocode_address envFail ("1000 BLOCK E BROADWAY".toList) cache0
            true).2.2.attempts.filter
          (fun p => decide (p.1 = "block_to_address".toList))).map Prod.snd
        = [ "1000 East BROADWAY".toList, "1000 E BROADWAY".toList
          , "1050 East BROADWAY".toList, "1050 E BROADWAY".toList
          , "1099 East BROADWAY".toList, "1099 E BROADWAY".toList ] :=
  ⟨fun env N street sExp st hF => blockStep_trace env hF N street sExp st, by decide⟩

/-- Witness for `block_candidate_strategy` at the all-failing environment
and a concrete block. -/
theorem block_candidate_strategy_witness :
    (blockStep envFail 100 ("MAIN".toList) ("MAIN".toList) st0).1 = emptyLL ∧
      (blockStep envFail 100 ("MAIN".toList) ("MAIN".toList) st0).2.attempts
        = st0.attempts ++ specBlockAttempts 100
            (mkVariants ("MAIN".toList) ("MAIN".toList)) ("MAIN".toList) ("MAIN".toList) :=
  block_candidate_strategy.1 envFail 100 ("MAIN".toList) ("MAIN".toList) st0
    ⟨fun _ => rfl, fun _ => rfl, fun _ => rfl, fun _ _ => rfl, fun _ => rfl, fun _ _ => rfl⟩

/-- C7: on the empty input address, `geocode_address` short-circuits —
it returns the null coordinate with zero attempts, zero provider calls,
zero sleeps, and the cache object unchanged. -/
theorem geocode_empty_input_short_circuit (env : Env) (cache : Cache) (retry : Bool) :
    geocode_address env [] cache retry = (emptyLL, cache, st0) := rfl

/-- C8: the free-text provider appends the default
`", Columbia, MO, USA"` suffix to a cleaned query exactly when the query
does not already mention the region — none of `COLUMBIA`, `MO`,
`MISSOURI` occurs in its upper-cased text — and never when one does. -/
theorem nominatim_region_suffix (env : Env) (q : Str) (h : cleanWS q ≠ []) :
    ((hasSub ("COLUMBIA".toList) (upperL (cleanWS q)) = false ∧
        hasSub ("MO".toList) (upperL (cleanWS q)) = false ∧
        hasSub ("MISSOURI".toList) (upperL (cleanWS q)) = false) →
      nominatim_query env q
        = nomAfterSuffix env (cleanWS q ++ ", Columbia, MO, USA".toList)) ∧
    ((hasSub ("COLUMBIA".toList) (upperL (cleanWS q)) = true ∨
        hasSub ("MO".toList) (upperL (cleanWS q)) = true ∨
        hasSub ("MISSOURI".toList) (upperL (cleanWS q)) = true) →
      nominatim_query env q = nomAfterSuffix env (cleanWS q)) := by
  constructor
  · intro hm
    have hr : regionMention (cleanWS q) = false := by
      unfold regionMention
      rw [hm.1, hm.2.1, hm.2.2]
      rfl
    unfold nominatim_query
    dsimp only
    rw [if_neg h, hr]
    rfl
  · intro hm
    have hr : regionMention (cleanWS q) = true := by
      unfold regionMention
      rcases hm with h1 | h1 | h1 <;> rw [h1] <;> simp
    unfold nominatim_query
    dsimp only
    rw [if_neg h, hr]
    rfl

/-- Witness for `nominatim_region_suffix`: a query without any region
token is suffixed; one containing `MO` (inside `MOSS`) is not. -/
theorem nominatim_region_suffix_witness :
    nominatim_query envFail ("BROADWAY".toList)
        = nomAfterSuffix envFail (cleanWS ("BROADWAY".toList) ++ ", Columbia, MO, USA".toList) ∧
      nominatim_query envFail ("MOSS ST".toList)
        = nomAfterSuffix envFail (cleanWS ("MOSS ST".toList)) :=
  ⟨(nominatim_region_suffix envFail ("BROADWAY".toList) (by decide)).1 (by decide),
   (nominatim_region_suffix envFail ("MOSS ST".toList) (by decide)).2 (by decide)⟩

/-- C9: `geocode_address` modifies at most the single cache entry whose
key is the upper-cased, whitespace-normalized input — every other key
reads the same after the call — and on the cache-hit fast path the cache
is returned entirely unchanged. -/
theorem geocode_cache_frame (env : Env) (address : Str) (cache : Cache) (retry : Bool) :
    (∀ k, k ≠ upperL (cleanWS address) →
        (geocode_address env address cache retry).2.1 k = cache k) ∧
      (∀ v, address ≠ [] → cache (upperL (cleanWS address)) = some v →
        (retry = false ∨ isFailedLL v = false) →
        (geocode_address env address cache retry).2.1 = cache) := by
  constructor
  · intro k hk
    unfold geocode_address
    split
    · rfl
    · dsimp only
      split
      · split
        · rfl
        · dsimp only
          unfold updateCache
          rw [if_neg hk]
      · dsimp only
        unfold updateCache
        rw [if_neg hk]
  · intro v hne hc hfast
    rw [cacheHit_eq env address cache retry v hne hc hfast]

/-- Witness for `geocode_cache_frame`: a key other than the input's key
is untouched. -/
theorem geocode_cache_frame_witness :
    (geocode_address envFail ("A".toList) cache0 true).2.1 ("B".toList)
      = cache0 ("B".toList) :=
  (geocode_cache_frame envFail ("A".toList) cache0 true).1 ("B".toList) (by decide)

/-- C10, counterexample: a whitespace-only input hits the cache under the
empty-string key; with a cached success there, `geocode_address` returns
the cached coordinate (not null), records no attempt, and writes nothing
— contradicting the claim's unconditional "returns null and writes a
null-pair entry". -/
theorem geocode_whitespace_cached_success :
    (geocode_address envFail (" ".toList) cacheEmptyKey true).1
        = (some 39, some 92) ∧
      (geocode_address envFail (" ".toList) cacheEmptyKey true).2.2.attempts = [] ∧
      (geocode_address envFail (" ".toList) cacheEmptyKey true).2.1 []
        = some (some 39, some 92) := by
  exact ⟨by decide, by decide, by decide⟩

/-- C10 (amended): for every non-empty, all-whitespace input whose
empty-string cache key does not produce a fast-path hit (missing, or a
failed entry with retries enabled), `geocode_address` does not take the
empty-input short-circuit, runs the pipeline recording zero attempts and
zero provider calls, returns the null coordinate, and writes a null-pair
failure into the cache under the key `""`. -/
theorem geocode_whitespace_input (env : Env) (cache : Cache) (retry : Bool) (s : Str)
    (hne : s ≠ []) (hws : ∀ c ∈ s, isWS c = true)
    (hmiss : cache [] = none ∨
      (retry = true ∧ ∃ v, cache [] = some v ∧ isFailedLL v = true)) :
    geocode_address env s cache retry = (emptyLL, updateCache cache [] emptyLL, st0) := by
  unfold geocode_address
  rw [if_neg hne]
  dsimp only
  rw [cleanWS_all_ws s hws]
  have hup : upperL ([] : Str) = [] := rfl
  have hnd : normalizeDispatch ([] : Str) = [] := rfl
  rw [hup, hnd]
  rcases hmiss with hm | ⟨hr, v, hv, hfail⟩
  · rw [hm]
    dsimp only
    rw [resolveCore_nil]
  · rw [hv]
    dsimp only
    rw [hr, hfail, show ((!true || !true) = false) from rfl,
      if_neg (by decide : ¬ false = true)]
    rw [resolveCore_nil]

/-- Witness for `geocode_whitespace_input` at the input `" "` and an
empty cache. -/
theorem geocode_whitespace_input_witness :
    geocode_address envFail (" ".toList) cache0 true
      = (emptyLL, updateCache cache0 [] emptyLL, st0) :=
  geocode_whitespace_input envFail cache0 true (" ".toList) (by decide) (by decide)
    (Or.inl rfl)
